import Mathlib

/-!
# ctxerror: request-scoped, deduplicating error capture

A shallow embedding of `error.go` (package `ctxerror`) and the properties of its
capture dispatcher.

Modelling conventions

* The program is sequential state passing: every operation takes the program
  state and returns the new one.  The state holds the heap of `errorHandler`
  records (a `*errorHandler` is an index into it), the chronological trace of
  user-handler invocations, and the texts passed to the output of the standard
  logger.
* An operation that can panic returns `Except Failure State`.  A failure ends
  the run: no state is returned for it.
* A user handler is external code.  The embedding records the call (which
  function, and the three arguments it received) and lets it return.
* An `error` is nil or a dynamic value.  A dynamic value is unhashable (the map
  access panics on it), or hashable and equal to itself under `==`, or hashable
  and holding a NaN, which `==` finds equal to nothing.  The map lookup
  `handled[err]` is `mapHas`, a search by `==`.
* `context.Context` is the collaborator described by the `context` package: the
  nil interface value, or a chain of `WithValue` / `WithCancel` derivations,
  looked up from the leaf towards the root.  The method call on nil panics.
* `fmt.Sprintf` is modelled on the part of its formats that the library and the
  interface example use; on every other format and operand it is the parameter
  `other`, about which nothing is assumed.
* `log.Printf` passes its formatted text to the output of the standard logger,
  which writes it after a header and ends it with a newline
  (`stdLoggerOutput`).
* Handlers that call back into the library are covered by `captureMessageR`:
  the same code, with the handler call running a body of nested captures, the
  nesting bounded by fuel.  With bodies that capture nothing it is
  `captureMessage` (`captureMessageR_plain`).
* Concurrent callers are covered by an interleaving semantics (`Goroutine.step`,
  `Config.exec`): one step per statement of `captureMessage`, `Lock` waiting on
  a held mutex, any goroutine that can move being scheduled next.  A goroutine
  running alone reaches what `Capture` returns (`solo_run_is_Capture`).
-/

namespace ctxerror

/-! ## Run-time failures -/

/-- Ways a call can fail at run time in a single-goroutine execution. -/
inductive Failure where
  /-- A method call through a nil interface value. -/
  | nilDereference
  /-- A map access whose interface key has an unhashable dynamic value
  (`runtime error: hash of unhashable type`). -/
  | unhashableKey
  /-- The only goroutine waits for a mutex that is already held. -/
  | deadlock
  deriving DecidableEq, Repr

/-! ## Values of the Go interface type `error` -/

/-- What a `map[error]struct{}` stores as a key: the interface value itself,
that is nil, or a dynamic type together with a dynamic value.  `dyn` is a value
that Go's `==` finds equal to itself; `nan` is a hashable value that holds a
floating-point NaN, which `==` finds equal to nothing, itself included.  The
text returned by `Error()` is not part of a key. -/
inductive ErrorKey where
  | nil
  | dyn (typ : Nat) (value : Nat)
  | nan (typ : Nat) (value : Nat)
  deriving DecidableEq, Repr

/-- Go's `==` on two keys, as the map uses it: both nil, or the same dynamic type
and equal dynamic values; a value holding a NaN is equal to none. -/
def ErrorKey.eq : ErrorKey → ErrorKey → Bool
  | .nil, .nil => true
  | .dyn typ value, .dyn typ' value' => decide (typ = typ' ∧ value = value')
  | _, _ => false

/-- The lookup `_, ok := handled[k]` on the keys of a map: some stored key is
`==` to `k`. -/
def mapHas (handled : List ErrorKey) (k : ErrorKey) : Bool :=
  handled.any (fun x => x.eq k)

/-- A value of the interface type `error`: nil, or a dynamic type `typ` with a
dynamic value `value`.  For `dyn`, `hashable` tells whether the value can be
hashed (a slice-based error type cannot), and a hashable one is `==` to itself.
`nan` is a hashable value that holds a floating-point NaN (an error type over
`float64`, say): it can be hashed but is `==` to nothing, itself included.
`text` is what the `Error()` method returns. -/
inductive error where
  | nil
  | dyn (typ : Nat) (value : Nat) (hashable : Bool) (text : String)
  | nan (typ : Nat) (value : Nat) (text : String)
  deriving DecidableEq, Repr

/-- The call `err.Error()`: a nil interface has no method to call. -/
def error.Error : error → Except Failure String
  | .nil => .error .nilDereference
  | .dyn _ _ _ text => .ok text
  | .nan _ _ text => .ok text

/-- Hashing `err` as a key of `map[error]struct{}`.  A nil interface is a valid
key; an unhashable dynamic value makes the map access panic. -/
def error.mapKey : error → Except Failure ErrorKey
  | .nil => .ok .nil
  | .dyn typ value true _ => .ok (.dyn typ value)
  | .dyn _ _ false _ => .error .unhashableKey
  | .nan typ value _ => .ok (.nan typ value)

/-! ## The ambient context -/

/-- The unexported context key type, `type key int`. -/
abbrev key := Int

/-- The error handler context key, `const errHandlerContextKey key = 0`. -/
def errHandlerContextKey : key := 0

/-- A context key is an `interface{}`: compared by dynamic type and value.
`lib k` is a value of the package-private type `key`; `app n` is a value of
any other type, which is all that code outside the package can build. -/
inductive CtxKey where
  | lib (k : key)
  | app (n : Nat)
  deriving DecidableEq, Repr

/-- A value stored in a context: a `*errorHandler` (an address in the heap of
the state) or a value of some other type. -/
inductive CtxValue where
  | errorHandlerPtr (addr : Nat)
  | other (n : Nat)
  deriving DecidableEq, Repr

/-- A `context.Context`: the nil interface value, the root, a
`context.WithValue` child, or a child that adds no value (`context.WithCancel`,
`WithDeadline`, `WithTimeout`).  `WithValue` of `golang.org/x/net/context` does
not inspect its parent, so a child of nil is a value too. -/
inductive Context where
  | nil
  | background
  | withValue (parent : Context) (k : CtxKey) (v : CtxValue)
  | withCancel (parent : Context)
  deriving DecidableEq, Repr

/-- The lookup `ctx.Value(k)`: the nearest enclosing `WithValue` for `k`, walking
to the parent when the key differs; `none` is the nil result at the root.  The
method call on a nil context, at the leaf or reached through the parents,
panics. -/
def Context.Value : Context → CtxKey → Except Failure (Option CtxValue)
  | .nil, _ => .error .nilDereference
  | .background, _ => .ok none
  | .withValue parent k v, k' => if k' = k then .ok (some v) else parent.Value k'
  | .withCancel parent, k' => parent.Value k'

/-! ## Handlers, bindings and the program state -/

/-- An error handler function value: `none` is the nil function, `some f` the
user function identified by `f`. -/
abbrev ErrorHandlerFunc := Option Nat

/-- The error handler record.  `lock` is the state of its mutex (`true` when
held), `handled` the key set of `map[error]struct{}`. -/
structure errorHandler where
  lock : Bool
  handlerFunc : ErrorHandlerFunc
  handled : List ErrorKey
  deriving DecidableEq, Repr

/-- One call of a user handler function: `handlerFunc(ctx, err, msg)`. -/
structure Invocation where
  handlerFunc : Nat
  ctx : Context
  err : error
  msg : String
  deriving DecidableEq, Repr

/-- The program state: the heap of `errorHandler` records, the calls made to
user handlers so far (oldest first) and the texts `log.Printf` has passed to the
output of the standard logger so far (oldest first). -/
structure State where
  heap : List errorHandler
  calls : List Invocation
  log : List String
  deriving DecidableEq, Repr

/-- The state of a program that has not used the library yet. -/
def State.init : State := ⟨[], [], []⟩

/-- The method `lock.Lock()` in a single goroutine: it takes a free mutex and
never returns on a held one. -/
def errorHandler.Lock (h : errorHandler) : Except Failure errorHandler :=
  if h.lock then .error .deadlock else .ok { h with lock := true }

/-- The method `lock.Unlock()`. -/
def errorHandler.Unlock (h : errorHandler) : errorHandler :=
  { h with lock := false }

/-- Write the record `h` back at address `a`. -/
def State.store (s : State) (a : Nat) (h : errorHandler) : State :=
  { s with heap := s.heap.set a h }

/-- The reported set of the binding at address `a` (empty when there is none). -/
def State.handledAt (s : State) (a : Nat) : List ErrorKey :=
  match s.heap[a]? with
  | some h => h.handled
  | none => []

/-! ## Formatting (`fmt.Sprintf`, `log.Printf`) -/

/-- An operand of a formatting call: a string, an `int`, or a value of any other
type. -/
inductive Arg where
  | str (s : String)
  | int (n : Int)
  | other (tag : Nat)
  deriving DecidableEq, Repr

/-- One operand as `fmt` lists it among the extra operands, `type=value`; `none`
for an operand of another type. -/
def Arg.extra : Arg → Option String
  | .str s => some ("string=" ++ s)
  | .int n => some ("int=" ++ toString n)
  | .other _ => none

/-- The operands left over at the end of the format, `type=value` each. -/
def extraArgs : List Arg → Option (List String)
  | [] => some []
  | a :: as =>
    match a.extra, extraArgs as with
    | some x, some xs => some (x :: xs)
    | _, _ => none

/-- One of the verbs `v`, `s`, `d` applied to one operand: `v` is the default
format, `s` prints a string, `d` an integer in decimal, and `s` on an integer or
`d` on a string gives the bad-verb form `%!verb(type=value)`; `none` for any
other verb and for an operand of another type. -/
def fmtVerb (c : Char) (a : Arg) : Option String :=
  match a with
  | .str s =>
    if c = 'v' ∨ c = 's' then some s
    else if c = 'd' then some ("%!d(string=" ++ s ++ ")")
    else none
  | .int n =>
    if c = 'v' ∨ c = 'd' then some (toString n)
    else if c = 's' then some ("%!s(int=" ++ toString n ++ ")")
    else none
  | .other _ => none

/-- The part of `fmt.Sprintf` that is modelled: formats whose every `%` is
followed by `v`, `s`, `d` or `%`, on string and `int` operands.  Text is copied,
`%%` is a percent sign, a verb consumes one operand, a verb without operand
gives `%!verb(MISSING)`, a trailing `%` gives `%!(NOVERB)`, and operands left
over at the end are listed as `%!(EXTRA ...)`.  Everything else (flags, width,
precision, other verbs, other operand types) is `none`. -/
def sprintfAux : List Char → List Arg → Option String
  | [], [] => some ""
  | [], a :: as =>
    match extraArgs (a :: as) with
    | some xs => some ("%!(EXTRA " ++ ", ".intercalate xs ++ ")")
    | none => none
  | [c], as =>
    match sprintfAux [] as with
    | some r => some ((if c = '%' then "%!(NOVERB)" else c.toString) ++ r)
    | none => none
  | c :: d :: rest, as =>
    if c = '%' then
      if d = '%' then
        match sprintfAux rest as with
        | some r => some ("%" ++ r)
        | none => none
      else if d = 'v' ∨ d = 's' ∨ d = 'd' then
        match as with
        | [] =>
          match sprintfAux rest [] with
          | some r => some ("%!" ++ d.toString ++ "(MISSING)" ++ r)
          | none => none
        | a :: as' =>
          match fmtVerb d a, sprintfAux rest as' with
          | some x, some r => some (x ++ r)
          | _, _ => none
      else none
    else
      match sprintfAux (d :: rest) as with
      | some r => some (c.toString ++ r)
      | none => none

/-- The call `fmt.Sprintf(format, args...)`: what the modelled part gives where
it applies, and elsewhere what `other` gives, the unknown rest of the
function. -/
def Sprintf (other : String → List Arg → String) (format : String) (args : List Arg) : String :=
  match sprintfAux format.toList args with
  | some r => r
  | none => other format args

/-- The text of the default handler, the format `Error: %s: %s` on two strings
(`Sprintf_errorLine`). -/
def errorLine (msg text : String) : String :=
  "Error: " ++ msg ++ ": " ++ text

/-- What the standard logger writes to its stream for the text `line` that
`log.Printf` passes to its output: the header its flags ask for (date and time
by default, nothing with the flags cleared), the text, and a newline when the
text does not end in one. -/
def stdLoggerOutput (header line : String) : String :=
  if line.toList.getLast? = some '\n' then header ++ line else header ++ line ++ "\n"

/-! ## The library -/

/-- New context with error handler assigned: allocates a fresh record (zero
mutex, the given handler, an empty map) and stores its address in a child of
`ctx` under `errHandlerContextKey`. -/
def NewContext (s : State) (ctx : Context) (errHandler : ErrorHandlerFunc) : Context × State :=
  (Context.withValue ctx (CtxKey.lib errHandlerContextKey) (CtxValue.errorHandlerPtr s.heap.length),
   { s with heap := s.heap ++ [{ lock := false, handlerFunc := errHandler, handled := [] }] })

/-- Default error handler: `log.Printf("Error: %s: %s", msg, err.Error())`.  The
operand `err.Error()` is evaluated before anything is logged; the format is
applied to two strings, which gives `errorLine`. -/
def defaultErrHandler (s : State) (_ctx : Context) (err : error) (msg : String) :
    Except Failure State := do
  let text ← err.Error
  pure { s with log := s.log ++ [errorLine msg text] }

/-- A call `handlerFunc(ctx, err, msg)` of the user function `f`. -/
def callHandler (s : State) (f : Nat) (ctx : Context) (err : error) (msg : String) : State :=
  { s with calls := s.calls ++ [⟨f, ctx, err, msg⟩] }

/-- Capture error in context with message.

The call `ctx.Value(errHandlerContextKey)` panics on a nil context.  The type
assertion on its result fails for a missing value and for a value that is no
`*errorHandler`; the call then returns.  An address outside the heap cannot
come out of `NewContext`; it is treated like the failed assertion.  Otherwise:
lock, look `err` up in `handled`, insert it when the lookup finds nothing,
unlock, and only then, when nothing was found, call the handler function of the
record, or `defaultErrHandler` when that is nil. -/
def captureMessage (s : State) (ctx : Context) (err : error) (msg : String) :
    Except Failure State :=
  match ctx.Value (CtxKey.lib errHandlerContextKey) with
  | .error x => .error x
  | .ok (some (CtxValue.errorHandlerPtr a)) =>
    match s.heap[a]? with
    | none => pure s
    | some errHandler => do
      let locked ← errHandler.Lock
      let k ← err.mapKey
      let handled := mapHas locked.handled k
      let marked := if !handled then { locked with handled := k :: locked.handled } else locked
      let s1 := s.store a marked.Unlock
      if !handled then
        match errHandler.handlerFunc with
        | none => defaultErrHandler s1 ctx err msg
        | some f => pure (callHandler s1 f ctx err msg)
      else
        pure s1
  | .ok _ => pure s

/-- Capture error in context.  The argument `err.Error()` is evaluated before
`captureMessage` is entered. -/
def Capture (s : State) (ctx : Context) (err : error) : Except Failure State := do
  let msg ← err.Error
  captureMessage s ctx err msg

/-- Capture error in context with message. -/
def CaptureMessage (s : State) (ctx : Context) (err : error) (msg : String) :
    Except Failure State :=
  captureMessage s ctx err msg

/-- Capture error in context with formatted message.  `other` is the part of
`fmt.Sprintf` that is not modelled. -/
def CaptureMessagef (other : String → List Arg → String) (s : State) (ctx : Context)
    (err : error) (msgFormat : String) (msgArgs : List Arg) : Except Failure State :=
  captureMessage s ctx err (Sprintf other msgFormat msgArgs)

/-! ## Sequencing -/

/-- The same call `Capture(ctx, err)` made `n` times in a row. -/
def captureTimes : Nat → State → Context → error → Except Failure State
  | 0, s, _, _ => pure s
  | n + 1, s, ctx, err => do
    let s1 ← Capture s ctx err
    captureTimes n s1 ctx err

/-! ## Vocabulary of the properties -/

/-- In state `s` the context `ctx` carries the binding `b`: the lookup of
`errHandlerContextKey` gives the address `a`, the record at `a` is `b`, and no
capture is in progress on it (its mutex is free). -/
def Resolves (s : State) (ctx : Context) (a : Nat) (b : errorHandler) : Prop :=
  ctx.Value (CtxKey.lib errHandlerContextKey) = .ok (some (CtxValue.errorHandlerPtr a))
    ∧ s.heap[a]? = some b ∧ b.lock = false

/-- A context on whose lineage `NewContext` was never applied: a chain over the
root (not over nil) on which every value sits under an application key. -/
def Context.plain : Context → Prop
  | .nil => False
  | .background => True
  | .withValue parent (.app _) _ => parent.plain
  | .withValue _ (.lib _) _ => False
  | .withCancel parent => parent.plain

/-- A context whose lineage starts at a root, not at nil. -/
def Context.rooted : Context → Prop
  | .nil => False
  | .background => True
  | .withValue parent _ _ => parent.rooted
  | .withCancel parent => parent.rooted

/-- One derivation step made by application code: a value under an application
key, or a cancellation scope. -/
inductive Derivation where
  | withValue (n : Nat) (v : CtxValue)
  | withCancel
  deriving DecidableEq, Repr

/-- The context derived from `c` by the steps `ds`, first step first. -/
def Context.derive (c : Context) : List Derivation → Context
  | [] => c
  | .withValue n v :: ds => (Context.withValue c (.app n) v).derive ds
  | .withCancel :: ds => (Context.withCancel c).derive ds

/-- No mutex of the heap is held: no capture is in progress. -/
def State.unlocked (s : State) : Prop :=
  ∀ b ∈ s.heap, b.lock = false

/-- The mutex of the binding that `ctx` carries, if it carries one, is free: no
capture is in progress on it, and none has panicked while holding it. -/
def State.freeFor (s : State) (ctx : Context) : Prop :=
  ∀ a b, ctx.Value (CtxKey.lib errHandlerContextKey) = .ok (some (CtxValue.errorHandlerPtr a)) →
    s.heap[a]? = some b → b.lock = false

/-- What has been written to the log stream: one record for each text passed to
the output of the standard logger, under the header the logger made for it
(`headers`, oldest first). -/
def State.written (s : State) (headers : List String) : List String :=
  List.zipWith stdLoggerOutput headers s.log

/-- The call `Capture(ctx, err)` as the interface describes it: `CaptureMessage`
with the error's own string as the message, `CaptureMessage(ctx, err, err.Error())`. -/
def CaptureSpec (s : State) (ctx : Context) (err : error) : Except Failure State := do
  let msg ← err.Error
  CaptureMessage s ctx err msg

/-- The interface value proper, as Go's `==` sees it: nil, or the dynamic type
with the dynamic value.  Two errors are `==` exactly when `ErrorKey.eq` holds of
their keys; the text returned by `Error()` is not compared. -/
def error.key : error → ErrorKey
  | .nil => .nil
  | .dyn typ value _ _ => .dyn typ value
  | .nan typ value _ => .nan typ value

/-- Whether the error can be a key of `map[error]struct{}`: the nil interface
can, a dynamic value can when it is hashable. -/
def error.hashable : error → Bool
  | .nil => true
  | .dyn _ _ hashable _ => hashable
  | .nan _ _ _ => true

/-- One call of the library from application code. -/
inductive Op where
  | NewContext (ctx : Context) (errHandler : ErrorHandlerFunc)
  | Capture (ctx : Context) (err : error)
  | CaptureMessage (ctx : Context) (err : error) (msg : String)
  | CaptureMessagef (ctx : Context) (err : error) (msgFormat : String) (msgArgs : List Arg)
  deriving DecidableEq, Repr

/-- The effect of one call on the state (the context `NewContext` returns goes
to the caller).  `other` is the part of `fmt.Sprintf` that is not modelled. -/
def Op.run (other : String → List Arg → String) (s : State) : Op → Except Failure State
  | .NewContext ctx errHandler => pure (ctxerror.NewContext s ctx errHandler).2
  | .Capture ctx err => ctxerror.Capture s ctx err
  | .CaptureMessage ctx err msg => ctxerror.CaptureMessage s ctx err msg
  | .CaptureMessagef ctx err msgFormat msgArgs =>
      ctxerror.CaptureMessagef other s ctx err msgFormat msgArgs

/-- The error a call passes to the dispatcher, if it is a capture. -/
def Op.err : Op → Option error
  | .NewContext _ _ => none
  | .Capture _ err => some err
  | .CaptureMessage _ err _ => some err
  | .CaptureMessagef _ err _ _ => some err

/-- Calls made one after the other. -/
def runOps (other : String → List Arg → String) : State → List Op → Except Failure State
  | s, [] => pure s
  | s, op :: ops => do
    let s1 ← op.run other s
    runOps other s1 ops

/-- The arguments of one call `CaptureMessage(ctx, err, msg)`. -/
structure Call where
  ctx : Context
  err : error
  msg : String
  deriving DecidableEq, Repr

/-- The calls `CaptureMessage(ctx_i, e_i, m_i)` made one after the other. -/
def captureAll : State → List Call → Except Failure State
  | s, [] => pure s
  | s, c :: cs => do
    let s1 ← CaptureMessage s c.ctx c.err c.msg
    captureAll s1 cs

/-- The calls of a sequence whose error is `==` neither to a key in `seen` nor
to the error of an earlier call of the sequence, in the order of the
sequence. -/
def firstOccurrences (seen : List ErrorKey) : List Call → List Call
  | [] => []
  | c :: cs =>
    if mapHas seen c.err.key then firstOccurrences seen cs
    else c :: firstOccurrences (c.err.key :: seen) cs

/-! ## Handlers that call back into the library -/

/-- What the user handlers do when they run, as far as the library can see: for
the function `f`, the calls `CaptureMessage(ctx, e, m)` it makes, in order, on
the context it was called with. -/
abbrev HandlerBodies := Nat → List (error × String)

/-- The body of a running handler: its captures, one after the other, each made
by `capture`; the first that fails or does not finish ends the run. -/
def runBody (capture : State → Context → error → String → Option (Except Failure State)) :
    State → Context → List (error × String) → Option (Except Failure State)
  | s, _, [] => some (pure s)
  | s, ctx, (e, m) :: rest =>
    match capture s ctx e m with
    | some (.ok s1) => runBody capture s1 ctx rest
    | other => other

/-- Capture error in context with message, for handlers that call back into the
library.  The code is that of `captureMessage`; the call `handlerFunc(ctx, err,
msg)` of a user function runs its body, whose captures are nested calls of this
function.  `fuel` bounds the nesting depth, and `none` is a run that needs
more. -/
def captureMessageR (bodies : HandlerBodies) :
    Nat → State → Context → error → String → Option (Except Failure State)
  | 0, _, _, _, _ => none
  | fuel + 1, s, ctx, err, msg =>
    match ctx.Value (CtxKey.lib errHandlerContextKey) with
    | .error x => some (.error x)
    | .ok (some (CtxValue.errorHandlerPtr a)) =>
      match s.heap[a]? with
      | none => some (pure s)
      | some errHandler =>
        match errHandler.Lock with
        | .error x => some (.error x)
        | .ok locked =>
          match err.mapKey with
          | .error x => some (.error x)
          | .ok k =>
            let handled := mapHas locked.handled k
            let marked :=
              if !handled then { locked with handled := k :: locked.handled } else locked
            let s1 := s.store a marked.Unlock
            if !handled then
              match errHandler.handlerFunc with
              | none => some (defaultErrHandler s1 ctx err msg)
              | some f =>
                runBody (captureMessageR bodies fuel) (callHandler s1 f ctx err msg) ctx (bodies f)
            else
              some (pure s1)
    | .ok _ => some (pure s)

/-! ## Concurrent callers -/

/-- The control points of a goroutine running `Capture(ctx, err)`, one per
statement of `captureMessage` that touches shared state or the mutex. -/
inductive Pc where
  /-- About to evaluate `err.Error()` and to look the binding up. -/
  | entry
  /-- About to call `errHandler.lock.Lock()`. -/
  | lock
  /-- Holding the mutex, about to read `errHandler.handled[err]`. -/
  | lookup
  /-- Holding the mutex, about to run `if !handled { handled[err] = struct{}{} }`. -/
  | insert
  /-- Holding the mutex, about to call `errHandler.lock.Unlock()`. -/
  | unlock
  /-- Past the mutex, about to run `if !handled { handlerFunc(ctx, err, msg) }`. -/
  | dispatch
  /-- Returned. -/
  | done
  /-- Panicked. -/
  | crashed
  deriving DecidableEq, Repr

/-- A goroutine inside `Capture(ctx, err)`: its arguments, its control point and
its locals `msg`, `errHandler` (an address) and `handled`. -/
structure Goroutine where
  ctx : Context
  err : error
  pc : Pc
  msg : String
  errHandler : Nat
  handled : Bool
  deriving DecidableEq, Repr

/-- A goroutine that is about to call `Capture(ctx, err)`. -/
def Goroutine.start (ctx : Context) (err : error) : Goroutine :=
  { ctx := ctx, err := err, pc := Pc.entry, msg := "", errHandler := 0, handled := false }

/-- One step of a goroutine on the shared state, `none` when it cannot move: it
has returned or panicked, or it waits for the mutex.  The statements are those
of `Capture` and `captureMessage`; `Lock` on a held mutex waits instead of
returning. -/
def Goroutine.step (s : State) (g : Goroutine) : Option (State × Goroutine) :=
  match g.pc with
  | .entry =>
    match g.err.Error with
    | .error _ => some (s, { g with pc := Pc.crashed })
    | .ok msg =>
      match g.ctx.Value (CtxKey.lib errHandlerContextKey) with
      | .error _ => some (s, { g with msg := msg, pc := Pc.crashed })
      | .ok (some (CtxValue.errorHandlerPtr a)) =>
        match s.heap[a]? with
        | some _ => some (s, { g with msg := msg, errHandler := a, pc := Pc.lock })
        | none => some (s, { g with msg := msg, pc := Pc.done })
      | .ok _ => some (s, { g with msg := msg, pc := Pc.done })
  | .lock =>
    match s.heap[g.errHandler]? with
    | none => none
    | some h =>
      match h.Lock with
      | .error _ => none
      | .ok locked => some (s.store g.errHandler locked, { g with pc := Pc.lookup })
  | .lookup =>
    match s.heap[g.errHandler]? with
    | none => none
    | some h =>
      match g.err.mapKey with
      | .error _ => some (s, { g with pc := Pc.crashed })
      | .ok k => some (s, { g with handled := mapHas h.handled k, pc := Pc.insert })
  | .insert =>
    match s.heap[g.errHandler]? with
    | none => none
    | some h =>
      match g.err.mapKey with
      | .error _ => some (s, { g with pc := Pc.crashed })
      | .ok k =>
        some (if !g.handled then s.store g.errHandler { h with handled := k :: h.handled } else s,
          { g with pc := Pc.unlock })
  | .unlock =>
    match s.heap[g.errHandler]? with
    | none => none
    | some h => some (s.store g.errHandler h.Unlock, { g with pc := Pc.dispatch })
  | .dispatch =>
    if !g.handled then
      match s.heap[g.errHandler]? with
      | none => none
      | some h =>
        match h.handlerFunc with
        | none =>
          match defaultErrHandler s g.ctx g.err g.msg with
          | .error _ => some (s, { g with pc := Pc.crashed })
          | .ok s1 => some (s1, { g with pc := Pc.done })
        | some f => some (callHandler s f g.ctx g.err g.msg, { g with pc := Pc.done })
    else
      some (s, { g with pc := Pc.done })
  | .done => none
  | .crashed => none

/-- The shared state and the goroutines of a program. -/
structure Config where
  state : State
  goroutines : List Goroutine
  deriving DecidableEq, Repr

/-- `K` goroutines about to call `Capture(ctx, err)` on the state `s`. -/
def Config.spawn (s : State) (ctx : Context) (err : error) (K : Nat) : Config :=
  { state := s, goroutines := List.replicate K (Goroutine.start ctx err) }

/-- The scheduler lets goroutine `i` make its next step; `none` when it cannot
move, or when a goroutine has panicked, which ends the program. -/
def Config.step (c : Config) (i : Nat) : Option Config :=
  if c.goroutines.any (fun g => decide (g.pc = Pc.crashed)) then none
  else
    match c.goroutines[i]? with
    | none => none
    | some g =>
      match g.step c.state with
      | none => none
      | some (s, g') => some { state := s, goroutines := c.goroutines.set i g' }

/-- An interleaving: the goroutines step in the order of the schedule; `none`
when the schedule picks a goroutine that cannot move. -/
def Config.exec : Config → List Nat → Option Config
  | c, [] => some c
  | c, i :: sch =>
    match c.step i with
    | none => none
    | some c' => c'.exec sch

/-- The class of a goroutine of the race: its control point, and from the
lookup on what it observed. -/
def Goroutine.cls (g : Goroutine) : Nat :=
  match g.pc, g.handled with
  | .entry, _ => 0
  | .lock, _ => 1
  | .lookup, _ => 2
  | .insert, false => 3
  | .insert, true => 4
  | .unlock, false => 5
  | .unlock, true => 6
  | .dispatch, false => 7
  | .dispatch, true => 8
  | .done, false => 9
  | .done, true => 10
  | .crashed, _ => 11

/-- The number of goroutines of class `n`. -/
def cnt (n : Nat) (T : List Goroutine) : Nat :=
  T.countP (fun g => decide (g.cls = n))

/-- The number of steps the goroutines have made together. -/
def stepsMade (T : List Goroutine) : Nat :=
  cnt 1 T + 2 * cnt 2 T + 3 * (cnt 3 T + cnt 4 T) + 4 * (cnt 5 T + cnt 6 T)
    + 5 * (cnt 7 T + cnt 8 T) + 6 * (cnt 9 T + cnt 10 T)

/-- The invariant of the race of `K` callers of `Capture(ctx, e)` with a
hashable, new error of text `text` and key `k`, `==` to itself, on the binding
`b` at address
`a` with user handler `f`, started in state `s`.  Classes 2 to 6 hold the
mutex; classes 3, 5, 7, 9 observed the error as new, classes 4, 6, 8, 10 as
handled; classes 5 to 10 are past the insertion. -/
structure RaceInv (s : State) (ctx : Context) (a : Nat) (b : errorHandler) (f : Nat)
    (e : error) (text : String) (k : ErrorKey) (K : Nat) (c : Config) : Prop where
  each : ∀ g ∈ c.goroutines, g.ctx = ctx ∧ g.err = e
    ∧ (g.pc ≠ Pc.entry → g.msg = text ∧ g.errHandler = a)
  total : cnt 0 c.goroutines + cnt 1 c.goroutines + cnt 2 c.goroutines + cnt 3 c.goroutines
    + cnt 4 c.goroutines + cnt 5 c.goroutines + cnt 6 c.goroutines + cnt 7 c.goroutines
    + cnt 8 c.goroutines + cnt 9 c.goroutines + cnt 10 c.goroutines = K
  nocrash : cnt 11 c.goroutines = 0
  heap : ∃ h, c.state.heap[a]? = some h ∧ h.handlerFunc = some f
    ∧ (h.lock = true → cnt 2 c.goroutines + cnt 3 c.goroutines + cnt 4 c.goroutines
        + cnt 5 c.goroutines + cnt 6 c.goroutines = 1)
    ∧ (h.lock = false → cnt 2 c.goroutines + cnt 3 c.goroutines + cnt 4 c.goroutines
        + cnt 5 c.goroutines + cnt 6 c.goroutines = 0)
    ∧ (cnt 5 c.goroutines + cnt 7 c.goroutines + cnt 9 c.goroutines = 0 →
        h.handled = b.handled)
    ∧ (1 ≤ cnt 5 c.goroutines + cnt 7 c.goroutines + cnt 9 c.goroutines →
        h.handled = k :: b.handled)
  winner : cnt 3 c.goroutines + cnt 5 c.goroutines + cnt 7 c.goroutines
    + cnt 9 c.goroutines ≤ 1
  losers : 1 ≤ cnt 4 c.goroutines + cnt 6 c.goroutines + cnt 8 c.goroutines
      + cnt 10 c.goroutines →
    1 ≤ cnt 5 c.goroutines + cnt 7 c.goroutines + cnt 9 c.goroutines
  calls : c.state.calls = s.calls ++ List.replicate (cnt 9 c.goroutines) ⟨f, ctx, e, text⟩
  log : c.state.log = s.log

/-! ## Basic facts -/

theorem store_same (s : State) (a : Nat) (b : errorHandler) (h : s.heap[a]? = some b) :
    s.store a b = s := by
  have hset : s.heap.set a b = s.heap := by
    apply List.ext_getElem?
    intro i
    by_cases hi : a = i
    · subst hi
      rw [List.getElem?_set_self', h]
      simp
    · rw [List.getElem?_set_ne hi]
  cases s
  simp_all [State.store]

/-- Two keys that `==` finds equal are the same key. -/
theorem eq_of_ErrorKey_eq (x k : ErrorKey) (h : x.eq k = true) : x = k := by
  cases x <;> cases k <;> simp_all [ErrorKey.eq]

/-- The operator `==` is symmetric. -/
theorem ErrorKey_eq_comm (x k : ErrorKey) : x.eq k = k.eq x := by
  cases x <;> cases k <;> simp [ErrorKey.eq, eq_comm]

/-- Nothing is `==` to a value that holds a NaN. -/
theorem ErrorKey_eq_nan (x : ErrorKey) (typ value : Nat) : x.eq (.nan typ value) = false := by
  cases x <;> rfl

theorem mapHas_cons (x : ErrorKey) (l : List ErrorKey) (k : ErrorKey) :
    mapHas (x :: l) k = (x.eq k || mapHas l k) := by
  simp [mapHas]

/-- A key the lookup finds is a stored key. -/
theorem mem_of_mapHas (l : List ErrorKey) (k : ErrorKey) (h : mapHas l k = true) : k ∈ l := by
  simp only [mapHas, List.any_eq_true] at h
  obtain ⟨x, hx, hxk⟩ := h
  rw [← eq_of_ErrorKey_eq x k hxk]
  exact hx

/-- A stored key that is `==` to itself is found. -/
theorem mapHas_of_mem (l : List ErrorKey) (k : ErrorKey) (hk : k.eq k = true) (h : k ∈ l) :
    mapHas l k = true := by
  simp only [mapHas, List.any_eq_true]
  exact ⟨k, h, hk⟩

theorem mapHas_self (l : List ErrorKey) (k : ErrorKey) (hk : k.eq k = true) :
    mapHas (k :: l) k = true :=
  mapHas_of_mem _ k hk (List.mem_cons_self k l)

/-- A value that holds a NaN is never found, whatever the map stores. -/
theorem mapHas_nan (l : List ErrorKey) (typ value : Nat) : mapHas l (.nan typ value) = false := by
  cases h : mapHas l (.nan typ value) with
  | false => rfl
  | true =>
    simp only [mapHas, List.any_eq_true] at h
    obtain ⟨x, _, hx⟩ := h
    rw [ErrorKey_eq_nan] at hx
    cases hx

theorem derive_Value (c : Context) (ds : List Derivation) (k : key) :
    (c.derive ds).Value (CtxKey.lib k) = c.Value (CtxKey.lib k) := by
  induction ds generalizing c with
  | nil => rfl
  | cons d ds ih =>
    cases d with
    | withValue n v => simp [Context.derive, ih, Context.Value]
    | withCancel => simp [Context.derive, ih, Context.Value]

theorem plain_Value (c : Context) (h : c.plain) (k : key) :
    c.Value (CtxKey.lib k) = .ok none := by
  induction c with
  | nil => simp [Context.plain] at h
  | background => rfl
  | withValue parent k' v ih =>
    cases k' with
    | lib _ => simp [Context.plain] at h
    | app n => simp [Context.plain] at h; simp [Context.Value, ih h]
  | withCancel parent ih => simp [Context.plain] at h; simp [Context.Value, ih h]

/-- On a context whose lineage starts at a root the lookup returns. -/
theorem rooted_Value (c : Context) (h : c.rooted) (k : CtxKey) : ∃ v, c.Value k = .ok v := by
  induction c with
  | nil => simp [Context.rooted] at h
  | background => exact ⟨none, rfl⟩
  | withValue parent k' v ih =>
    by_cases hk : k = k'
    · exact ⟨some v, by simp [Context.Value, hk]⟩
    · obtain ⟨w, hw⟩ := ih h
      exact ⟨w, by simp [Context.Value, hk, hw]⟩
  | withCancel parent ih =>
    obtain ⟨w, hw⟩ := ih h
    exact ⟨w, by simp [Context.Value, hw]⟩

/-- The lookup of the binding panics: so does the call, before anything else. -/
theorem captureMessage_nil (s : State) (ctx : Context) (e : error) (m : String) (x : Failure)
    (h : ctx.Value (CtxKey.lib errHandlerContextKey) = .error x) :
    captureMessage s ctx e m = .error x := by
  simp [captureMessage, h]

/-- Without a binding the call returns at once and the state is the one it was
given. -/
theorem captureMessage_unbound (s : State) (ctx : Context) (e : error) (m : String)
    (h : ctx.Value (CtxKey.lib errHandlerContextKey) = .ok none) :
    captureMessage s ctx e m = .ok s := by
  simp [captureMessage, h, pure, Except.pure]

/-- An error that the lookup finds in the reported set: nothing happens. -/
theorem captureMessage_seen (s : State) (ctx : Context) (e : error) (m : String)
    (a : Nat) (b : errorHandler) (k : ErrorKey)
    (hr : Resolves s ctx a b) (hk : e.mapKey = .ok k) (hin : mapHas b.handled k = true) :
    captureMessage s ctx e m = .ok s := by
  obtain ⟨hv, hb, hl⟩ := hr
  have hb' : ({ b with lock := false } : errorHandler) = b := by
    cases b; simp_all
  simp [captureMessage, hv, hb, errorHandler.Lock, hl, hk, hin, bind, Except.bind, pure,
    Except.pure, errorHandler.Unlock, hb', store_same s a b hb]

/-- A new error under a binding with a user handler: it is marked, then the
handler is called once with the arguments of the capture. -/
theorem captureMessage_new_user (s : State) (ctx : Context) (e : error) (m : String)
    (a : Nat) (b : errorHandler) (k : ErrorKey) (f : Nat)
    (hr : Resolves s ctx a b) (hf : b.handlerFunc = some f)
    (hk : e.mapKey = .ok k) (hnew : mapHas b.handled k = false) :
    captureMessage s ctx e m
      = .ok (callHandler (s.store a { b with handled := k :: b.handled }) f ctx e m) := by
  obtain ⟨hv, hb, hl⟩ := hr
  have hb' : ({ lock := false, handlerFunc := b.handlerFunc, handled := k :: b.handled }
      : errorHandler) = { b with handled := k :: b.handled } := by
    cases b; simp_all
  simp [captureMessage, hv, hb, errorHandler.Lock, hl, hk, hnew, bind, Except.bind, pure,
    Except.pure, errorHandler.Unlock, hf, hb']

/-- The text of the default handler is its format applied to the message and the
error text, whatever the rest of `fmt.Sprintf` does. -/
theorem Sprintf_errorLine (other : String → List Arg → String) (m t : String) :
    Sprintf other "Error: %s: %s" [Arg.str m, Arg.str t] = errorLine m t := by
  simp [Sprintf, sprintfAux, fmtVerb, errorLine]
  apply String.ext
  simp [String.data_append, Char.toString, String.singleton]

/-- A new error under a binding without handler: it is marked, then the default
handler logs one line. -/
theorem captureMessage_new_default (s : State) (ctx : Context) (e : error) (m t : String)
    (a : Nat) (b : errorHandler) (k : ErrorKey)
    (hr : Resolves s ctx a b) (hf : b.handlerFunc = none)
    (hk : e.mapKey = .ok k) (hnew : mapHas b.handled k = false) (ht : e.Error = .ok t) :
    captureMessage s ctx e m
      = .ok { s.store a { b with handled := k :: b.handled } with
              log := s.log ++ [errorLine m t] } := by
  obtain ⟨hv, hb, hl⟩ := hr
  have hb' : ({ lock := false, handlerFunc := b.handlerFunc, handled := k :: b.handled }
      : errorHandler) = { b with handled := k :: b.handled } := by
    cases b; simp_all
  simp [captureMessage, hv, hb, errorHandler.Lock, hl, hk, hnew, bind, Except.bind, pure,
    Except.pure, errorHandler.Unlock, hf, hb', defaultErrHandler, ht, State.store]

/-- The context returned by `NewContext` carries the record it allocated. -/
theorem NewContext_resolves (s : State) (p : Context) (h : ErrorHandlerFunc) :
    Resolves (NewContext s p h).2 (NewContext s p h).1 s.heap.length
      { lock := false, handlerFunc := h, handled := [] } := by
  refine ⟨?_, ?_, rfl⟩
  · simp [NewContext, Context.Value]
  · simp [NewContext]

theorem store_getElem? (s : State) (a : Nat) (b b' : errorHandler) (h : s.heap[a]? = some b) :
    (s.store a b').heap[a]? = some b' := by
  have hlt : a < s.heap.length := by
    by_contra hge
    rw [List.getElem?_eq_none (Nat.le_of_not_lt hge)] at h
    cases h
  simp [State.store, List.getElem?_set_self hlt]

theorem resolves_store (s : State) (ctx : Context) (a : Nat) (b b' : errorHandler)
    (hr : Resolves s ctx a b) (hl : b'.lock = false) : Resolves (s.store a b') ctx a b' :=
  ⟨hr.1, store_getElem? s a b b' hr.2.1, hl⟩

theorem resolves_callHandler (s : State) (ctx ctx' : Context) (a : Nat) (b : errorHandler)
    (f : Nat) (e : error) (m : String) (hr : Resolves s ctx a b) :
    Resolves (callHandler s f ctx' e m) ctx a b := hr

theorem Capture_dyn (s : State) (ctx : Context) (typ value : Nat) (hashable : Bool) (text : String) :
    Capture s ctx (error.dyn typ value hashable text)
      = captureMessage s ctx (error.dyn typ value hashable text) text := rfl

theorem Capture_nan (s : State) (ctx : Context) (typ value : Nat) (text : String) :
    Capture s ctx (error.nan typ value text)
      = captureMessage s ctx (error.nan typ value text) text := rfl

/-- An error with a text is captured by `Capture` with that text as message. -/
theorem Capture_of_Error (s : State) (ctx : Context) (e : error) (text : String)
    (h : e.Error = .ok text) : Capture s ctx e = captureMessage s ctx e text := by
  simp [Capture, h, bind, Except.bind]

theorem captureTimes_seen (s : State) (ctx : Context) (e : error) (text : String)
    (a : Nat) (b : errorHandler) (k : ErrorKey) (hr : Resolves s ctx a b)
    (ht : e.Error = .ok text) (hk : e.mapKey = .ok k)
    (hin : mapHas b.handled k = true) (n : Nat) :
    captureTimes n s ctx e = .ok s := by
  induction n with
  | zero => rfl
  | succ n ih =>
    have h1 : Capture s ctx e = .ok s := by
      rw [Capture_of_Error s ctx e text ht]
      exact captureMessage_seen s ctx _ text a b _ hr hk hin
    simp [captureTimes, h1, bind, Except.bind, ih]
/-! ## C1: deduplication -/

/-- C1, as amended.  For every state, parent context, user handler `f`, number
`n` and every error `e` that is non-nil (`e.Error()` returns `text`), hashable
(`k` is its map key) and equal to itself under `==`: on the binding just created
by `NewContext`, the first `Capture` returns, calls `f` exactly once with the
context, the error and the error's own text, logs nothing and leaves the error
as the only reported one; from then on any number of further calls returns the
very same state (no handler, no change of the reported set), so `n + 1` calls
in a row call `f` exactly once. -/
theorem capture_dedup (s : State) (p : Context) (f : Nat) (e : error) (text : String)
    (k : ErrorKey) (n : Nat)
    (ht : e.Error = .ok text) (hk : e.mapKey = .ok k) (hrefl : k.eq k = true) :
    let c := (NewContext s p (some f)).1
    let s1 := (NewContext s p (some f)).2
    ∃ s2, Capture s1 c e = .ok s2
      ∧ s2.calls = s1.calls ++ [⟨f, c, e, text⟩]
      ∧ s2.log = s1.log
      ∧ s2.handledAt s.heap.length = [k]
      ∧ (∀ m, captureTimes m s2 c e = .ok s2)
      ∧ captureTimes (n + 1) s1 c e = .ok s2 := by
  intro c s1
  have hr := NewContext_resolves s p (some f)
  have h1 := (Capture_of_Error s1 c e text ht).trans
    (captureMessage_new_user s1 c e text _ _ k f hr rfl hk rfl)
  have hr2 := resolves_callHandler _ c c _ _ f e text
    (resolves_store s1 c _ _
      { lock := false, handlerFunc := some f, handled := [k] } hr rfl)
  refine ⟨_, h1, rfl, rfl, ?_, ?_, ?_⟩
  · simp [State.handledAt, hr2.2.1]
  · intro m
    exact captureTimes_seen _ c e text _ _ k hr2 ht hk (mapHas_self [] k hrefl) m
  · simp only [captureTimes, h1, bind, Except.bind]
    exact captureTimes_seen _ c e text _ _ k hr2 ht hk (mapHas_self [] k hrefl) n

/-- C1 instantiated: three calls on a fresh binding over the root, with handler
7 and an error of type 1, value 0 and text "boom". -/
theorem capture_dedup_witness :
    ∃ s2, Capture (NewContext State.init Context.background (some 7)).2
        (NewContext State.init Context.background (some 7)).1 (error.dyn 1 0 true "boom")
        = .ok s2
      ∧ s2.calls = [⟨7, (NewContext State.init Context.background (some 7)).1,
          error.dyn 1 0 true "boom", "boom"⟩]
      ∧ s2.log = []
      ∧ s2.handledAt 0 = [ErrorKey.dyn 1 0]
      ∧ (∀ m, captureTimes m s2 (NewContext State.init Context.background (some 7)).1
          (error.dyn 1 0 true "boom") = .ok s2)
      ∧ captureTimes 3 (NewContext State.init Context.background (some 7)).2
          (NewContext State.init Context.background (some 7)).1 (error.dyn 1 0 true "boom")
        = .ok s2 :=
  capture_dedup State.init Context.background 7 (error.dyn 1 0 true "boom") "boom"
    (ErrorKey.dyn 1 0) 2 rfl rfl (by decide)

/-- C1 as stated fails.  On a fresh binding with a user handler, a single
`Capture` of an error with an unhashable dynamic value panics at the map
lookup, and a single `Capture` of the nil error panics at `err.Error()`: the
handler is never called.  Three calls of `Capture` with one hashable error that
holds a NaN return, and the handler is called three times: the lookup never
finds the error, and every call inserts it again. -/
theorem capture_dedup_not_for_every_error :
    captureTimes 1 (NewContext State.init Context.background (some 7)).2
        (NewContext State.init Context.background (some 7)).1 (error.dyn 1 0 false "boom")
      = .error Failure.unhashableKey
    ∧ captureTimes 1 (NewContext State.init Context.background (some 7)).2
        (NewContext State.init Context.background (some 7)).1 error.nil
      = .error Failure.nilDereference
    ∧ ∃ s3, captureTimes 3 (NewContext State.init Context.background (some 7)).2
          (NewContext State.init Context.background (some 7)).1 (error.nan 1 0 "NaN")
        = .ok s3
      ∧ s3.calls = [⟨7, (NewContext State.init Context.background (some 7)).1,
            error.nan 1 0 "NaN", "NaN"⟩,
          ⟨7, (NewContext State.init Context.background (some 7)).1,
            error.nan 1 0 "NaN", "NaN"⟩,
          ⟨7, (NewContext State.init Context.background (some 7)).1,
            error.nan 1 0 "NaN", "NaN"⟩]
      ∧ s3.handledAt 0 = [ErrorKey.nan 1 0, ErrorKey.nan 1 0, ErrorKey.nan 1 0] :=
  ⟨rfl, rfl, _, rfl, rfl, rfl⟩

/-! ## C2: distinctness -/

/-- C2, as amended.  For every binding with a user handler `f` (carried by `ctx`,
no capture in progress) and every two hashable errors that `==` finds different
(`e1 != e2`), neither found in the reported set yet: capturing `e1` and then
`e2` returns and calls `f` once for `e1` and then once for `e2`; after the first
capture `e2` is still not found; and the same holds in the other order. -/
theorem capture_distinct (s : State) (ctx : Context) (a : Nat) (b : errorHandler) (f : Nat)
    (e1 e2 : error) (k1 k2 : ErrorKey) (m1 m2 : String)
    (hr : Resolves s ctx a b) (hf : b.handlerFunc = some f)
    (hk1 : e1.mapKey = .ok k1) (hk2 : e2.mapKey = .ok k2) (hne : k1.eq k2 = false)
    (hn1 : mapHas b.handled k1 = false) (hn2 : mapHas b.handled k2 = false) :
    (∃ s1 s2, CaptureMessage s ctx e1 m1 = .ok s1 ∧ CaptureMessage s1 ctx e2 m2 = .ok s2
      ∧ mapHas (s1.handledAt a) k2 = false
      ∧ s2.calls = s.calls ++ [⟨f, ctx, e1, m1⟩, ⟨f, ctx, e2, m2⟩] ∧ s2.log = s.log)
    ∧ (∃ t1 t2, CaptureMessage s ctx e2 m2 = .ok t1 ∧ CaptureMessage t1 ctx e1 m1 = .ok t2
      ∧ mapHas (t1.handledAt a) k1 = false
      ∧ t2.calls = s.calls ++ [⟨f, ctx, e2, m2⟩, ⟨f, ctx, e1, m1⟩] ∧ t2.log = s.log) := by
  have key : ∀ (x y : error) (kx ky : ErrorKey) (mx my : String),
      x.mapKey = .ok kx → y.mapKey = .ok ky → kx.eq ky = false →
      mapHas b.handled kx = false → mapHas b.handled ky = false →
      ∃ s1 s2, CaptureMessage s ctx x mx = .ok s1 ∧ CaptureMessage s1 ctx y my = .ok s2
        ∧ mapHas (s1.handledAt a) ky = false
        ∧ s2.calls = s.calls ++ [⟨f, ctx, x, mx⟩, ⟨f, ctx, y, my⟩] ∧ s2.log = s.log := by
    intro x y kx ky mx my hx hy hxy hnx hny
    have h1 := captureMessage_new_user s ctx x mx a b kx f hr hf hx hnx
    have hr1 : Resolves (callHandler (s.store a { b with handled := kx :: b.handled }) f ctx x mx)
        ctx a { b with handled := kx :: b.handled } :=
      resolves_callHandler _ ctx ctx a _ f x mx (resolves_store s ctx a b _ hr hr.2.2)
    have hny1 : mapHas ({ b with handled := kx :: b.handled } : errorHandler).handled ky
        = false := by
      simp [mapHas_cons, hxy, hny]
    have h2 := captureMessage_new_user _ ctx y my a _ ky f hr1 hf hy hny1
    refine ⟨_, _, h1, h2, ?_, ?_, ?_⟩
    · simpa [State.handledAt, hr1.2.1] using hny1
    · simp [callHandler, State.store]
    · simp [callHandler, State.store]
  exact ⟨key e1 e2 k1 k2 m1 m2 hk1 hk2 hne hn1 hn2,
    key e2 e1 k2 k1 m2 m1 hk2 hk1 (by rw [ErrorKey_eq_comm]; exact hne) hn2 hn1⟩

/-- C2 instantiated: a fresh binding with handler 7 and two errors of different
dynamic types. -/
theorem capture_distinct_witness :
    (∃ s1 s2,
      CaptureMessage (NewContext State.init Context.background (some 7)).2
        (NewContext State.init Context.background (some 7)).1 (error.dyn 1 0 true "a") "first"
        = .ok s1
      ∧ CaptureMessage s1 (NewContext State.init Context.background (some 7)).1
        (error.dyn 2 0 true "b") "second" = .ok s2
      ∧ mapHas (s1.handledAt 0) (ErrorKey.dyn 2 0) = false
      ∧ s2.calls = [⟨7, (NewContext State.init Context.background (some 7)).1,
            error.dyn 1 0 true "a", "first"⟩,
          ⟨7, (NewContext State.init Context.background (some 7)).1,
            error.dyn 2 0 true "b", "second"⟩]
      ∧ s2.log = []) :=
  (capture_distinct (NewContext State.init Context.background (some 7)).2
    (NewContext State.init Context.background (some 7)).1 0
    { lock := false, handlerFunc := some 7, handled := [] } 7
    (error.dyn 1 0 true "a") (error.dyn 2 0 true "b") (ErrorKey.dyn 1 0) (ErrorKey.dyn 2 0)
    "first" "second" ⟨rfl, rfl, rfl⟩ rfl rfl rfl (by decide) (by decide) (by decide)).1

/-- C2 as stated fails: two errors of different dynamic types are distinct, yet
when the first has an unhashable dynamic value its capture panics at the map
lookup and the handler is called for neither. -/
theorem capture_distinct_not_for_every_error :
    CaptureMessage (NewContext State.init Context.background (some 7)).2
        (NewContext State.init Context.background (some 7)).1 (error.dyn 1 0 false "a") "first"
      = .error Failure.unhashableKey := by
  rfl

/-! ## C3: no binding, no effect -/

/-- C3, as amended.  On a context that is not nil, is not derived from a nil
context and on whose lineage `NewContext` was never applied, `CaptureMessage`
and `CaptureMessagef` return for every error value (nil and unhashable ones
included), whatever `fmt.Sprintf` makes of the format, and `Capture` returns for
every non-nil error; the state they return is the state they were given, so no
handler ran, nothing was logged and no record changed. -/
theorem no_binding_no_effect (other : String → List Arg → String) (s : State) (ctx : Context)
    (hp : ctx.plain) (e : error) (m msgFormat : String) (msgArgs : List Arg) :
    CaptureMessage s ctx e m = .ok s
    ∧ CaptureMessagef other s ctx e msgFormat msgArgs = .ok s
    ∧ (e ≠ error.nil → Capture s ctx e = .ok s) := by
  have hv := plain_Value ctx hp errHandlerContextKey
  refine ⟨captureMessage_unbound s ctx e m hv, captureMessage_unbound s ctx e _ hv, ?_⟩
  intro hne
  cases e with
  | nil => exact absurd rfl hne
  | dyn typ value hashable text => exact captureMessage_unbound s ctx _ text hv
  | nan typ value text => exact captureMessage_unbound s ctx _ text hv

/-- C3 instantiated: a context holding only an application value, and an
unhashable error. -/
theorem no_binding_no_effect_witness :
    (Context.withValue Context.background (CtxKey.app 3) (CtxValue.other 4)).plain
    ∧ CaptureMessage State.init
        (Context.withValue Context.background (CtxKey.app 3) (CtxValue.other 4))
        (error.dyn 1 0 false "boom") "m" = .ok State.init
    ∧ CaptureMessagef (fun _ _ => "") State.init
        (Context.withValue Context.background (CtxKey.app 3) (CtxValue.other 4))
        (error.dyn 1 0 false "boom") "%5d|%x" [Arg.int 5, Arg.int 6] = .ok State.init
    ∧ Capture State.init
        (Context.withValue Context.background (CtxKey.app 3) (CtxValue.other 4))
        (error.dyn 1 0 false "boom") = .ok State.init :=
  have h := no_binding_no_effect (fun _ _ => "") State.init
    (Context.withValue Context.background (CtxKey.app 3) (CtxValue.other 4)) trivial
    (error.dyn 1 0 false "boom") "m" "%5d|%x" [Arg.int 5, Arg.int 6]
  ⟨trivial, h.1, h.2.1, h.2.2 (by decide)⟩

/-- C3 as stated fails.  On the root context `Capture` of the nil error panics
evaluating `err.Error()`.  On the nil context, on whose lineage `NewContext` was
never applied either, every entry point panics at `ctx.Value`, whatever the
error; so it does on a context derived from nil by application code. -/
theorem no_binding_Capture_nil_panics :
    Capture State.init Context.background error.nil = .error Failure.nilDereference
    ∧ CaptureMessage State.init Context.nil (error.dyn 1 0 true "boom") "m"
      = .error Failure.nilDereference
    ∧ Capture State.init Context.nil (error.dyn 1 0 true "boom")
      = .error Failure.nilDereference
    ∧ CaptureMessagef (fun _ _ => "") State.init Context.nil (error.dyn 1 0 true "boom") "m" []
      = .error Failure.nilDereference
    ∧ CaptureMessage State.init
        (Context.withValue Context.nil (CtxKey.app 3) (CtxValue.other 4))
        (error.dyn 1 0 true "boom") "m"
      = .error Failure.nilDereference :=
  ⟨rfl, rfl, rfl, rfl, rfl⟩
/-! ## C4: which calls return -/

/-- When the lookup of the binding returns and the mutex of the binding is free,
a capture returns for every hashable error, the nil error excepted when it
would reach the default handler. -/
theorem captureMessage_returns (s : State) (ctx : Context) (v : Option CtxValue)
    (hv : ctx.Value (CtxKey.lib errHandlerContextKey) = .ok v) (hfree : s.freeFor ctx)
    (e : error) (k : ErrorKey) (m : String) (hk : e.mapKey = .ok k)
    (hd : e = error.nil → ∀ a b, Resolves s ctx a b → b.handlerFunc ≠ none) :
    ∃ s', captureMessage s ctx e m = .ok s' := by
  cases v with
  | none => exact ⟨s, captureMessage_unbound s ctx e m hv⟩
  | some v =>
    cases v with
    | other n => exact ⟨s, by simp [captureMessage, hv, pure, Except.pure]⟩
    | errorHandlerPtr a =>
      cases hb : s.heap[a]? with
      | none => exact ⟨s, by simp [captureMessage, hv, hb, pure, Except.pure]⟩
      | some b =>
        have hr : Resolves s ctx a b := ⟨hv, hb, hfree a b hv hb⟩
        cases hin : mapHas b.handled k with
        | true => exact ⟨s, captureMessage_seen s ctx e m a b k hr hk hin⟩
        | false =>
          cases hf : b.handlerFunc with
          | some f => exact ⟨_, captureMessage_new_user s ctx e m a b k f hr hf hk hin⟩
          | none =>
            cases e with
            | nil => exact absurd hf (hd rfl a b hr)
            | dyn typ value hashable text =>
              exact ⟨_, captureMessage_new_default s ctx _ m text a b k hr hf hk hin rfl⟩
            | nan typ value text =>
              exact ⟨_, captureMessage_new_default s ctx _ m text a b k hr hf hk hin rfl⟩

/-- C4, as amended.  For every context on which the lookup
`ctx.Value(errHandlerContextKey)` returns (as it does on every context whose
lineage starts at a root, `rooted_Value`), in every state in which the mutex of
the binding that context carries is free (no capture in progress on it, none
that panicked while holding it), for every message, format and operands,
whatever `fmt.Sprintf` makes of them, and every hashable error value: when the
error is not nil, `Capture`, `CaptureMessage` and `CaptureMessagef` all return
normally; when it is nil, `CaptureMessage` and `CaptureMessagef` return normally
provided the binding of the context, if it has one, has a user handler. -/
theorem capture_returns (other : String → List Arg → String) (s : State) (ctx : Context)
    (v : Option CtxValue) (hv : ctx.Value (CtxKey.lib errHandlerContextKey) = .ok v)
    (hfree : s.freeFor ctx) (e : error)
    (k : ErrorKey) (hk : e.mapKey = .ok k) (m msgFormat : String) (msgArgs : List Arg) :
    (e ≠ error.nil →
      (∃ s', Capture s ctx e = .ok s') ∧ (∃ s', CaptureMessage s ctx e m = .ok s')
        ∧ (∃ s', CaptureMessagef other s ctx e msgFormat msgArgs = .ok s'))
    ∧ (e = error.nil → (∀ a b, Resolves s ctx a b → b.handlerFunc ≠ none) →
      (∃ s', CaptureMessage s ctx e m = .ok s')
        ∧ (∃ s', CaptureMessagef other s ctx e msgFormat msgArgs = .ok s')) := by
  constructor
  · intro hne
    have hd : e = error.nil → ∀ a b, Resolves s ctx a b → b.handlerFunc ≠ none :=
      fun h => absurd h hne
    refine ⟨?_, captureMessage_returns s ctx v hv hfree e k m hk hd,
      captureMessage_returns s ctx v hv hfree e k _ hk hd⟩
    cases e with
    | nil => exact absurd rfl hne
    | dyn typ value hashable text =>
      exact captureMessage_returns s ctx v hv hfree _ k text hk hd
    | nan typ value text =>
      exact captureMessage_returns s ctx v hv hfree _ k text hk hd
  · intro _ hd
    exact ⟨captureMessage_returns s ctx v hv hfree e k m hk (fun _ => hd),
      captureMessage_returns s ctx v hv hfree e k _ hk (fun _ => hd)⟩

/-- C4 instantiated: a state with two bindings, the mutex of the first held and
that of the second free; a context that carries the second, handler-less
binding; a hashable, non-nil error; a format outside the modelled part of
`fmt.Sprintf`. -/
theorem capture_returns_witness :
    (∃ s', Capture
        { heap := [{ lock := true, handlerFunc := some 7, handled := [] },
                   { lock := false, handlerFunc := none, handled := [] }],
          calls := [], log := [] }
        (Context.withValue Context.background (CtxKey.lib errHandlerContextKey)
          (CtxValue.errorHandlerPtr 1))
        (error.dyn 1 0 true "boom") = .ok s')
    ∧ (∃ s', CaptureMessagef (fun _ _ => "?")
        { heap := [{ lock := true, handlerFunc := some 7, handled := [] },
                   { lock := false, handlerFunc := none, handled := [] }],
          calls := [], log := [] }
        (Context.withValue Context.background (CtxKey.lib errHandlerContextKey)
          (CtxValue.errorHandlerPtr 1))
        (error.dyn 1 0 true "boom") "%5d|%x" [Arg.int 5, Arg.int 6] = .ok s') :=
  have hfree : State.freeFor
      { heap := [{ lock := true, handlerFunc := some 7, handled := [] },
                 { lock := false, handlerFunc := none, handled := [] }],
        calls := [], log := [] }
      (Context.withValue Context.background (CtxKey.lib errHandlerContextKey)
        (CtxValue.errorHandlerPtr 1)) := by
    intro a b h1 h2
    simp only [Context.Value, if_true, Except.ok.injEq, Option.some.injEq,
      CtxValue.errorHandlerPtr.injEq] at h1
    subst h1
    simp only [List.getElem?_cons_succ, List.getElem?_cons_zero, Option.some.injEq] at h2
    subst h2
    rfl
  have h := (capture_returns (fun _ _ => "?") _
    (Context.withValue Context.background (CtxKey.lib errHandlerContextKey)
      (CtxValue.errorHandlerPtr 1)) (some (CtxValue.errorHandlerPtr 1)) rfl hfree
    (error.dyn 1 0 true "boom") (ErrorKey.dyn 1 0) rfl "m" "%5d|%x" [Arg.int 5, Arg.int 6]).1
    (by decide)
  ⟨h.1, h.2.2⟩

/-- C4 as stated fails in five ways.  `Capture` of the nil error panics at
`err.Error()` even without a binding.  Under a binding the map lookup panics on
an unhashable error, whatever the entry point.  Under a binding without handler
`CaptureMessage` of the nil error panics inside `defaultErrHandler`.  On the nil
context every entry point panics at `ctx.Value`.  And the panic at the map
lookup happens with the mutex held: a goroutine that runs `Capture` of an
unhashable error alone stops there, in a state in which the mutex of the
binding is held, and in that state `Capture` of a hashable, non-nil error
through the same context waits for the mutex and never returns. -/
theorem capture_can_panic :
    Capture State.init Context.background error.nil = .error Failure.nilDereference
    ∧ CaptureMessage (NewContext State.init Context.background (some 7)).2
        (NewContext State.init Context.background (some 7)).1 (error.dyn 1 0 false "boom") "m"
      = .error Failure.unhashableKey
    ∧ CaptureMessagef (fun _ _ => "") (NewContext State.init Context.background (some 7)).2
        (NewContext State.init Context.background (some 7)).1 (error.dyn 1 0 false "boom")
        "item %d" [Arg.int 5]
      = .error Failure.unhashableKey
    ∧ CaptureMessage (NewContext State.init Context.background none).2
        (NewContext State.init Context.background none).1 error.nil "m"
      = .error Failure.nilDereference
    ∧ CaptureMessage State.init Context.nil (error.dyn 1 0 true "fine") "m"
      = .error Failure.nilDereference
    ∧ Capture State.init Context.nil (error.dyn 1 0 true "fine")
      = .error Failure.nilDereference
    ∧ ∃ c, Config.exec (Config.spawn (NewContext State.init Context.background (some 7)).2
          (NewContext State.init Context.background (some 7)).1 (error.dyn 1 0 false "boom") 1)
          [0, 0, 0] = some c
      ∧ c.goroutines.map (fun g => g.pc) = [Pc.crashed]
      ∧ c.state.heap = [{ lock := true, handlerFunc := some 7, handled := [] }]
      ∧ Capture c.state (NewContext State.init Context.background (some 7)).1
          (error.dyn 1 0 true "fine") = .error Failure.deadlock :=
  ⟨rfl, rfl, rfl, rfl, rfl, rfl, _, rfl, rfl, rfl, rfl⟩
/-! ## C5: isolation across bindings -/

/-- Every way a capture can return: without a usable binding, or on an error
already reported, the state is untouched; otherwise the error was new, it is
marked in the record the context points to, and the handler of that record (or
the default handler) ran once. -/
theorem captureMessage_ok_cases (s s' : State) (ctx : Context) (e : error) (m : String)
    (h : captureMessage s ctx e m = .ok s') :
    s' = s ∨ ∃ a b k, Resolves s ctx a b ∧ e.mapKey = .ok k ∧ mapHas b.handled k = false
      ∧ ((∃ f, b.handlerFunc = some f
            ∧ s' = callHandler (s.store a { b with handled := k :: b.handled }) f ctx e m)
        ∨ (∃ t, b.handlerFunc = none ∧ e.Error = .ok t
            ∧ s' = { s.store a { b with handled := k :: b.handled } with
                     log := s.log ++ [errorLine m t] })) := by
  cases hv : ctx.Value (CtxKey.lib errHandlerContextKey) with
  | error x => simp [captureMessage, hv] at h
  | ok v =>
  cases v with
  | none =>
    rw [captureMessage_unbound s ctx e m hv] at h
    exact Or.inl (by cases h; rfl)
  | some v =>
    cases v with
    | other n =>
      simp [captureMessage, hv, pure, Except.pure] at h
      exact Or.inl h.symm
    | errorHandlerPtr a =>
      cases hb : s.heap[a]? with
      | none =>
        simp [captureMessage, hv, hb, pure, Except.pure] at h
        exact Or.inl h.symm
      | some b =>
        cases hl : b.lock with
        | true => simp [captureMessage, hv, hb, errorHandler.Lock, hl, bind, Except.bind] at h
        | false =>
          have hr : Resolves s ctx a b := ⟨hv, hb, hl⟩
          cases hk : e.mapKey with
          | error x =>
            simp [captureMessage, hv, hb, errorHandler.Lock, hl, hk, bind, Except.bind] at h
          | ok k =>
            cases hin : mapHas b.handled k with
            | true =>
              rw [captureMessage_seen s ctx e m a b k hr hk hin] at h
              exact Or.inl (by cases h; rfl)
            | false =>
              refine Or.inr ⟨a, b, k, hr, rfl, hin, ?_⟩
              have hopt : b.handlerFunc = none ∨ ∃ f, b.handlerFunc = some f := by
                cases b.handlerFunc with
                | none => exact Or.inl rfl
                | some f => exact Or.inr ⟨f, rfl⟩
              rcases hopt with hf | ⟨f, hf⟩
              · cases e with
                | nil =>
                  simp [captureMessage, hv, hb, errorHandler.Lock, hl, hk, hin, hf, bind,
                    Except.bind, defaultErrHandler, error.Error] at h
                | dyn typ value hashable text =>
                  rw [captureMessage_new_default s ctx _ m text a b k hr hf hk hin rfl] at h
                  exact Or.inr ⟨text, hf, rfl, (Except.ok.inj h).symm⟩
                | nan typ value text =>
                  rw [captureMessage_new_default s ctx _ m text a b k hr hf hk hin rfl] at h
                  exact Or.inr ⟨text, hf, rfl, (Except.ok.inj h).symm⟩
              · rw [captureMessage_new_user s ctx e m a b k f hr hf hk hin] at h
                exact Or.inl ⟨f, hf, (Except.ok.inj h).symm⟩

/-- A capture changes no record but the one its context points to. -/
theorem captureMessage_frame (s s' : State) (ctx : Context) (e : error) (m : String)
    (h : captureMessage s ctx e m = .ok s') (a' : Nat)
    (hne : ctx.Value (CtxKey.lib errHandlerContextKey)
      ≠ .ok (some (CtxValue.errorHandlerPtr a'))) :
    s'.heap[a']? = s.heap[a']? := by
  rcases captureMessage_ok_cases s s' ctx e m h with h0 | ⟨a, b, k, hr, _, _, h1 | h1⟩
  · rw [h0]
  · obtain ⟨f, _, hs⟩ := h1
    have hna : a ≠ a' := by
      intro heq; subst heq; exact hne hr.1
    simp [hs, callHandler, State.store, List.getElem?_set_ne hna]
  · obtain ⟨t, _, _, hs⟩ := h1
    have hna : a ≠ a' := by
      intro heq; subst heq; exact hne hr.1
    simp [hs, State.store, List.getElem?_set_ne hna]

/-- The calls a capture adds: none, or one call of the handler stored in the
record its context points to, with that context as first argument. -/
theorem captureMessage_calls (s s' : State) (ctx : Context) (e : error) (m : String)
    (h : captureMessage s ctx e m = .ok s') :
    s'.calls = s.calls ∨ ∃ a b f, Resolves s ctx a b ∧ b.handlerFunc = some f
      ∧ s'.calls = s.calls ++ [⟨f, ctx, e, m⟩] := by
  rcases captureMessage_ok_cases s s' ctx e m h with h0 | ⟨a, b, k, hr, _, _, h1 | h1⟩
  · exact Or.inl (by rw [h0])
  · obtain ⟨f, hf, hs⟩ := h1
    exact Or.inr ⟨a, b, f, hr, hf, by simp [hs, callHandler, State.store]⟩
  · obtain ⟨t, _, _, hs⟩ := h1
    exact Or.inl (by simp [hs, State.store])

/-- With no mutex held at all, the mutex of any binding is free. -/
theorem unlocked_freeFor (s : State) (hu : s.unlocked) (ctx : Context) : s.freeFor ctx :=
  fun _ b _ hb => hu b (List.getElem?_mem hb)

/-- The state before any use of the library holds no mutex. -/
theorem init_unlocked : State.init.unlocked := by
  intro b hb
  cases hb

/-- Allocating a binding leaves no mutex held. -/
theorem NewContext_unlocked (s : State) (p : Context) (h : ErrorHandlerFunc)
    (hu : s.unlocked) : (NewContext s p h).2.unlocked := by
  intro b hb
  simp only [NewContext, List.mem_append, List.mem_singleton] at hb
  rcases hb with hb | hb
  · exact hu b hb
  · rw [hb]

/-- A capture that returns leaves no mutex held: the lock it takes is released
before the handler is called. -/
theorem captureMessage_unlocked (s s' : State) (ctx : Context) (e : error) (m : String)
    (hu : s.unlocked) (h : captureMessage s ctx e m = .ok s') : s'.unlocked := by
  have hstore : ∀ (a : Nat) (b' : errorHandler), b'.lock = false →
      ∀ b ∈ s.heap.set a b', b.lock = false := by
    intro a b' hb' b hb
    rcases List.mem_or_eq_of_mem_set hb with h1 | h1
    · exact hu b h1
    · rw [h1]; exact hb'
  rcases captureMessage_ok_cases s s' ctx e m h with h0 | ⟨a, b, k, hr, _, _, h1 | h1⟩
  · rw [h0]; exact hu
  · obtain ⟨f, _, hs⟩ := h1
    rw [hs]
    exact hstore a _ hr.2.2
  · obtain ⟨t, _, _, hs⟩ := h1
    rw [hs]
    exact hstore a _ hr.2.2

theorem NewContext_keeps (s : State) (p : Context) (h : ErrorHandlerFunc) (a : Nat)
    (b : errorHandler) (hb : s.heap[a]? = some b) : (NewContext s p h).2.heap[a]? = some b := by
  have hlt : a < s.heap.length := by
    by_contra hge
    rw [List.getElem?_eq_none (Nat.le_of_not_lt hge)] at hb
    cases hb
  simp [NewContext, List.getElem?_append_left hlt, hb]

/-- C5.  Let `c1` and `c2` be created from the same parent with user handlers
`f1` and `f2`.  Once an error has been captured through `c1`: that capture
called `f1` with `c1` and nothing else, and left the reported set of the binding
of `c2` empty; the first capture of the same error through `c2` then returns
and calls `f2` exactly once, and a further one changes nothing when the error
is equal to itself under `==`; the same holds when that capture is made by
`Capture`, with the error's text as message.  In any state whatever, a capture
through `c1` leaves the record of `c2` as it was, and what it calls, if
anything, is the handler stored in the record of `c1`, with `c1` as its
context. -/
theorem bindings_isolated (s : State) (p : Context) (f1 f2 : Nat) (e : error)
    (m1 m2 : String) (s3 : State)
    (hcap : CaptureMessage (NewContext (NewContext s p (some f1)).2 p (some f2)).2
      (NewContext s p (some f1)).1 e m1 = .ok s3) :
    let c1 := (NewContext s p (some f1)).1
    let c2 := (NewContext (NewContext s p (some f1)).2 p (some f2)).1
    let s2 := (NewContext (NewContext s p (some f1)).2 p (some f2)).2
    s3.calls = s2.calls ++ [⟨f1, c1, e, m1⟩]
    ∧ s3.log = s2.log
    ∧ s3.handledAt (s.heap.length + 1) = []
    ∧ (∃ s4, CaptureMessage s3 c2 e m2 = .ok s4
        ∧ s4.calls = s3.calls ++ [⟨f2, c2, e, m2⟩] ∧ s4.log = s3.log
        ∧ (∀ k, e.mapKey = .ok k → k.eq k = true → CaptureMessage s4 c2 e m2 = .ok s4))
    ∧ (∀ text, e.Error = .ok text → ∃ s4, Capture s3 c2 e = .ok s4
        ∧ s4.calls = s3.calls ++ [⟨f2, c2, e, text⟩] ∧ s4.log = s3.log)
    ∧ (∀ (t t' : State) (e' : error) (m' : String), CaptureMessage t c1 e' m' = .ok t' →
        t'.heap[s.heap.length + 1]? = t.heap[s.heap.length + 1]?
        ∧ t'.handledAt (s.heap.length + 1) = t.handledAt (s.heap.length + 1)
        ∧ (t'.calls = t.calls ∨ ∃ b f, t.heap[s.heap.length]? = some b
            ∧ b.handlerFunc = some f ∧ t'.calls = t.calls ++ [⟨f, c1, e', m'⟩])) := by
  intro c1 c2 s2
  have hv1 : c1.Value (CtxKey.lib errHandlerContextKey)
      = .ok (some (CtxValue.errorHandlerPtr s.heap.length)) :=
    (NewContext_resolves s p (some f1)).1
  have hr2 : Resolves s2 c2 (s.heap.length + 1) { lock := false, handlerFunc := some f2, handled := [] } := by
    have h0 := NewContext_resolves (NewContext s p (some f1)).2 p (some f2)
    have hlen : (NewContext s p (some f1)).2.heap.length = s.heap.length + 1 := by
      simp [NewContext]
    rw [hlen] at h0
    exact h0
  have hr1 : Resolves s2 c1 s.heap.length { lock := false, handlerFunc := some f1, handled := [] } :=
    ⟨hv1, NewContext_keeps _ p (some f2) _ _ (NewContext_resolves s p (some f1)).2.1, rfl⟩
  have hne : c1.Value (CtxKey.lib errHandlerContextKey)
      ≠ .ok (some (CtxValue.errorHandlerPtr (s.heap.length + 1))) := by
    rw [hv1]; simp
  -- the frame of any capture through `c1`
  have hframe : ∀ (t t' : State) (e' : error) (m' : String), CaptureMessage t c1 e' m' = .ok t' →
      t'.heap[s.heap.length + 1]? = t.heap[s.heap.length + 1]?
      ∧ t'.handledAt (s.heap.length + 1) = t.handledAt (s.heap.length + 1)
      ∧ (t'.calls = t.calls ∨ ∃ b f, t.heap[s.heap.length]? = some b
          ∧ b.handlerFunc = some f ∧ t'.calls = t.calls ++ [⟨f, c1, e', m'⟩]) := by
    intro t t' e' m' ht
    have hfr := captureMessage_frame t t' c1 e' m' ht (s.heap.length + 1) hne
    refine ⟨hfr, by simp [State.handledAt, hfr], ?_⟩
    rcases captureMessage_calls t t' c1 e' m' ht with h0 | ⟨a, b, f, hr, hf, hc⟩
    · exact Or.inl h0
    · have ha : a = s.heap.length := by
        have := hr.1; rw [hv1] at this; simpa using this.symm
      subst ha
      exact Or.inr ⟨b, f, hr.2.1, hf, hc⟩
  -- the capture through `c1` that has happened
  obtain ⟨k, hk⟩ : ∃ k, e.mapKey = .ok k := by
    cases hk : e.mapKey with
    | ok k => exact ⟨k, rfl⟩
    | error x =>
      simp [CaptureMessage, captureMessage, hr1.1, hr1.2.1, errorHandler.Lock, hk, bind,
        Except.bind] at hcap
  have hs3 := captureMessage_new_user s2 c1 e m1 _ _ k f1 hr1 rfl hk rfl
  have hs3' : s3 = _ := Except.ok.inj ((hcap.symm.trans hs3))
  have h2 := hframe s2 s3 e m1 hcap
  have hr23 : Resolves s3 c2 (s.heap.length + 1)
      { lock := false, handlerFunc := some f2, handled := [] } :=
    ⟨hr2.1, h2.1.trans hr2.2.1, rfl⟩
  have hs4 := captureMessage_new_user s3 c2 e m2 _ _ k f2 hr23 rfl hk rfl
  have hr4 := resolves_callHandler _ c2 c2 _ _ f2 e m2
    (resolves_store s3 c2 _ _
      { lock := false, handlerFunc := some f2, handled := [k] } hr23 rfl)
  refine ⟨?_, ?_, ?_, ⟨_, hs4, rfl, rfl, ?_⟩, ?_, hframe⟩
  · rw [hs3']; simp [callHandler, State.store]
  · rw [hs3']; simp [callHandler, State.store]
  · rw [h2.2.1]; simp [State.handledAt, hr2.2.1]
  · intro k' hk' hrefl
    have hkk : k' = k := Except.ok.inj (hk'.symm.trans hk)
    subst hkk
    exact captureMessage_seen _ c2 e m2 _ _ k' hr4 hk (mapHas_self [] k' hrefl)
  · intro text ht
    cases e with
    | nil => cases ht
    | dyn typ value hashable tx =>
      have htx : tx = text := Except.ok.inj ht
      subst htx
      exact ⟨_, captureMessage_new_user s3 c2 _ tx _ _ k f2 hr23 rfl hk rfl, rfl, rfl⟩
    | nan typ value tx =>
      have htx : tx = text := Except.ok.inj ht
      subst htx
      exact ⟨_, captureMessage_new_user s3 c2 _ tx _ _ k f2 hr23 rfl hk rfl, rfl, rfl⟩

/-- C5 instantiated: two bindings over the root context with handlers 7 and 8;
the error is captured through the first, then through the second. -/
theorem bindings_isolated_witness :
    CaptureMessage (NewContext (NewContext State.init Context.background (some 7)).2
        Context.background (some 8)).2
      (NewContext State.init Context.background (some 7)).1 (error.dyn 1 0 true "boom") "m1"
      = .ok ⟨[⟨false, some 7, [ErrorKey.dyn 1 0]⟩, ⟨false, some 8, []⟩],
          [⟨7, (NewContext State.init Context.background (some 7)).1,
            error.dyn 1 0 true "boom", "m1"⟩], []⟩
    ∧ ∃ s4, CaptureMessage
        ⟨[⟨false, some 7, [ErrorKey.dyn 1 0]⟩, ⟨false, some 8, []⟩],
          [⟨7, (NewContext State.init Context.background (some 7)).1,
            error.dyn 1 0 true "boom", "m1"⟩], []⟩
        (NewContext (NewContext State.init Context.background (some 7)).2
          Context.background (some 8)).1
        (error.dyn 1 0 true "boom") "m2" = .ok s4
      ∧ s4.calls = [⟨7, (NewContext State.init Context.background (some 7)).1,
            error.dyn 1 0 true "boom", "m1"⟩,
          ⟨8, (NewContext (NewContext State.init Context.background (some 7)).2
            Context.background (some 8)).1, error.dyn 1 0 true "boom", "m2"⟩] :=
  have h := bindings_isolated State.init Context.background 7 8 (error.dyn 1 0 true "boom")
    "m1" "m2"
    ⟨[⟨false, some 7, [ErrorKey.dyn 1 0]⟩, ⟨false, some 8, []⟩],
      [⟨7, (NewContext State.init Context.background (some 7)).1,
        error.dyn 1 0 true "boom", "m1"⟩], []⟩ rfl
  ⟨rfl, h.2.2.2.1.imp fun _ h4 => ⟨h4.1, h4.2.1⟩⟩


/-! ## C6: shadowing -/

theorem derive_resolves (s : State) (c : Context) (ds : List Derivation) (a : Nat)
    (b : errorHandler) (hr : Resolves s c a b) : Resolves s (c.derive ds) a b :=
  ⟨(derive_Value c ds errHandlerContextKey).trans hr.1, hr.2.1, hr.2.2⟩

theorem getElem?_lt {α : Type} (l : List α) (a : Nat) (b : α) (h : l[a]? = some b) :
    a < l.length := by
  by_contra hge
  rw [List.getElem?_eq_none (Nat.le_of_not_lt hge)] at h
  cases h

/-- C6, as amended.  Let the parent `p` carry a binding `b0` with user handler
`f0`, let `c = NewContext(p, f1)` and let `d` be `c` or any context derived from
it by application values and cancellation scopes.  The first capture through
`d` of any hashable error, reported under `b0` or not, returns and makes exactly
one call, of `f1` with `d`; the record `b0`, its reported set included, is left
as it was; and afterwards the first capture through `p` of a hashable error
not yet reported under `b0` (one the lookup does not find there) returns and
calls `f0` with `p`. -/
theorem shadowing (s : State) (p : Context) (a0 : Nat) (b0 : errorHandler) (f0 f1 : Nat)
    (ds : List Derivation) (e e' : error) (k k' : ErrorKey) (m m' : String)
    (hr : Resolves s p a0 b0) (hf0 : b0.handlerFunc = some f0)
    (hk : e.mapKey = .ok k) (hk' : e'.mapKey = .ok k')
    (hnew' : mapHas b0.handled k' = false) :
    let d := (NewContext s p (some f1)).1.derive ds
    let s1 := (NewContext s p (some f1)).2
    ∃ s2, CaptureMessage s1 d e m = .ok s2
      ∧ s2.calls = s1.calls ++ [⟨f1, d, e, m⟩] ∧ s2.log = s1.log
      ∧ s2.heap[a0]? = some b0 ∧ s2.handledAt a0 = b0.handled
      ∧ ∃ s3, CaptureMessage s2 p e' m' = .ok s3
          ∧ s3.calls = s2.calls ++ [⟨f0, p, e', m'⟩] ∧ s3.log = s2.log := by
  intro d s1
  have hrd : Resolves s1 d s.heap.length { lock := false, handlerFunc := some f1, handled := [] } :=
    derive_resolves s1 _ ds _ _ (NewContext_resolves s p (some f1))
  have h2 := captureMessage_new_user s1 d e m _ _ k f1 hrd rfl hk rfl
  have hlt : a0 < s.heap.length := getElem?_lt s.heap a0 b0 hr.2.1
  have hb1 : s1.heap[a0]? = some b0 := NewContext_keeps s p (some f1) a0 b0 hr.2.1
  have hb2 : (callHandler (s1.store s.heap.length
      { lock := false, handlerFunc := some f1, handled := k :: [] }) f1 d e m).heap[a0]?
      = some b0 := by
    simp only [callHandler, State.store]
    rw [List.getElem?_set_ne (Nat.ne_of_gt hlt)]
    exact hb1
  have hr2 : Resolves (callHandler (s1.store s.heap.length
      { lock := false, handlerFunc := some f1, handled := k :: [] }) f1 d e m) p a0 b0 :=
    ⟨hr.1, hb2, hr.2.2⟩
  have h3 := captureMessage_new_user _ p e' m' a0 b0 k' f0 hr2 hf0 hk' hnew'
  refine ⟨_, h2, rfl, rfl, hb2, ?_, _, h3, rfl, rfl⟩
  simp only [State.handledAt]
  rw [hb2]

/-- C6 instantiated: the parent carries a binding with handler 7 that has already
reported the error; the child is bound to handler 8 and then extended by an
application value and a cancellation scope. -/
theorem shadowing_witness :
    ∃ s2, CaptureMessage
        (NewContext ⟨[⟨false, some 7, [ErrorKey.dyn 1 0]⟩],
            [⟨7, (NewContext State.init Context.background (some 7)).1,
              error.dyn 1 0 true "boom", "m0"⟩], []⟩
          (NewContext State.init Context.background (some 7)).1 (some 8)).2
        ((NewContext ⟨[⟨false, some 7, [ErrorKey.dyn 1 0]⟩],
            [⟨7, (NewContext State.init Context.background (some 7)).1,
              error.dyn 1 0 true "boom", "m0"⟩], []⟩
          (NewContext State.init Context.background (some 7)).1 (some 8)).1.derive
          [Derivation.withValue 3 (CtxValue.other 4), Derivation.withCancel])
        (error.dyn 1 0 true "boom") "m" = .ok s2
      ∧ s2.calls = [⟨7, (NewContext State.init Context.background (some 7)).1,
            error.dyn 1 0 true "boom", "m0"⟩,
          ⟨8, (NewContext ⟨[⟨false, some 7, [ErrorKey.dyn 1 0]⟩],
              [⟨7, (NewContext State.init Context.background (some 7)).1,
                error.dyn 1 0 true "boom", "m0"⟩], []⟩
            (NewContext State.init Context.background (some 7)).1 (some 8)).1.derive
            [Derivation.withValue 3 (CtxValue.other 4), Derivation.withCancel],
            error.dyn 1 0 true "boom", "m"⟩]
      ∧ s2.handledAt 0 = [ErrorKey.dyn 1 0] :=
  have h := shadowing ⟨[⟨false, some 7, [ErrorKey.dyn 1 0]⟩],
      [⟨7, (NewContext State.init Context.background (some 7)).1,
        error.dyn 1 0 true "boom", "m0"⟩], []⟩
    (NewContext State.init Context.background (some 7)).1 0
    ⟨false, some 7, [ErrorKey.dyn 1 0]⟩ 7 8
    [Derivation.withValue 3 (CtxValue.other 4), Derivation.withCancel]
    (error.dyn 1 0 true "boom") (error.dyn 2 0 true "other") (ErrorKey.dyn 1 0)
    (ErrorKey.dyn 2 0) "m" "m2" ⟨rfl, rfl, rfl⟩ rfl rfl rfl (by decide)
  h.imp fun _ h2 => ⟨h2.1, h2.2.1, h2.2.2.2.2.1⟩

/-- C6 as stated fails: under the shadowing binding the capture of an error with
an unhashable dynamic value panics at the map lookup, so the new handler is not
called. -/
theorem shadowing_not_for_every_error :
    CaptureMessage
        (NewContext (NewContext State.init Context.background (some 7)).2
          (NewContext State.init Context.background (some 7)).1 (some 8)).2
        (NewContext (NewContext State.init Context.background (some 7)).2
          (NewContext State.init Context.background (some 7)).1 (some 8)).1
        (error.dyn 1 0 false "boom") "m"
      = .error Failure.unhashableKey := by
  rfl

/-! ## C7: derived contexts share the binding -/

/-- C7, as amended.  Let `c = NewContext(p, f)` and let `d` be derived from `c`
by application values and cancellation scopes.  The lookup of the binding gives
the same record through `d` as through `c`.  For every hashable error that is
equal to itself under `==`: captured through `c` and then through `d`, the
first capture calls `f` once and the second returns the same state; captured
through `d` and then through `c`, likewise; `f` is called exactly once in total
in either order. -/
theorem derived_shares_binding (s : State) (p : Context) (f : Nat) (ds : List Derivation)
    (e : error) (k : ErrorKey) (m1 m2 : String) (hk : e.mapKey = .ok k)
    (hrefl : k.eq k = true) :
    let c := (NewContext s p (some f)).1
    let d := c.derive ds
    let s1 := (NewContext s p (some f)).2
    d.Value (CtxKey.lib errHandlerContextKey) = c.Value (CtxKey.lib errHandlerContextKey)
    ∧ (∃ s2, CaptureMessage s1 c e m1 = .ok s2
        ∧ s2.calls = s1.calls ++ [⟨f, c, e, m1⟩] ∧ CaptureMessage s2 d e m2 = .ok s2)
    ∧ (∃ t2, CaptureMessage s1 d e m2 = .ok t2
        ∧ t2.calls = s1.calls ++ [⟨f, d, e, m2⟩] ∧ CaptureMessage t2 c e m1 = .ok t2) := by
  intro c d s1
  have hrc : Resolves s1 c s.heap.length { lock := false, handlerFunc := some f, handled := [] } :=
    NewContext_resolves s p (some f)
  have hrd : Resolves s1 d s.heap.length { lock := false, handlerFunc := some f, handled := [] } :=
    derive_resolves s1 c ds _ _ hrc
  have key : ∀ (x y : Context) (mx my : String),
      Resolves s1 x s.heap.length { lock := false, handlerFunc := some f, handled := [] } →
      Resolves s1 y s.heap.length { lock := false, handlerFunc := some f, handled := [] } →
      ∃ s2, CaptureMessage s1 x e mx = .ok s2
        ∧ s2.calls = s1.calls ++ [⟨f, x, e, mx⟩] ∧ CaptureMessage s2 y e my = .ok s2 := by
    intro x y mx my hx hy
    have h2 := captureMessage_new_user s1 x e mx _ _ k f hx rfl hk rfl
    have hy2 := resolves_callHandler _ y x _ _ f e mx
      (resolves_store s1 y _ _ { lock := false, handlerFunc := some f, handled := [k] } hy rfl)
    exact ⟨_, h2, rfl, captureMessage_seen _ y e my _ _ k hy2 hk (mapHas_self [] k hrefl)⟩
  exact ⟨derive_Value c ds errHandlerContextKey, key c d m1 m2 hrc hrd, key d c m2 m1 hrd hrc⟩

/-- C7 instantiated: the bound context extended by two application values. -/
theorem derived_shares_binding_witness :
    ∃ s2, CaptureMessage (NewContext State.init Context.background (some 7)).2
        (NewContext State.init Context.background (some 7)).1 (error.dyn 1 0 true "boom") "m1"
        = .ok s2
      ∧ s2.calls = [⟨7, (NewContext State.init Context.background (some 7)).1,
          error.dyn 1 0 true "boom", "m1"⟩]
      ∧ CaptureMessage s2
        ((NewContext State.init Context.background (some 7)).1.derive
          [Derivation.withValue 3 (CtxValue.other 4), Derivation.withValue 5 (CtxValue.other 6)])
        (error.dyn 1 0 true "boom") "m2" = .ok s2 :=
  (derived_shares_binding State.init Context.background 7
    [Derivation.withValue 3 (CtxValue.other 4), Derivation.withValue 5 (CtxValue.other 6)]
    (error.dyn 1 0 true "boom") (ErrorKey.dyn 1 0) "m1" "m2" rfl (by decide)).2.1

/-- C7 as stated fails.  An error with an unhashable dynamic value captured
through a derived context panics at the map lookup, so the handler is called
zero times, not once.  A hashable error that holds a NaN, captured once through
`c` and once through a context derived from `c`, is not found by the second
lookup: the handler is called twice. -/
theorem derived_not_for_every_error :
    CaptureMessage (NewContext State.init Context.background (some 7)).2
        ((NewContext State.init Context.background (some 7)).1.derive
          [Derivation.withValue 3 (CtxValue.other 4)])
        (error.dyn 1 0 false "boom") "m"
      = .error Failure.unhashableKey
    ∧ ∃ s2 s3, CaptureMessage (NewContext State.init Context.background (some 7)).2
          (NewContext State.init Context.background (some 7)).1 (error.nan 1 0 "NaN") "m1"
        = .ok s2
      ∧ CaptureMessage s2
          ((NewContext State.init Context.background (some 7)).1.derive
            [Derivation.withValue 3 (CtxValue.other 4)])
          (error.nan 1 0 "NaN") "m2"
        = .ok s3
      ∧ s3.calls = [⟨7, (NewContext State.init Context.background (some 7)).1,
            error.nan 1 0 "NaN", "m1"⟩,
          ⟨7, (NewContext State.init Context.background (some 7)).1.derive
            [Derivation.withValue 3 (CtxValue.other 4)], error.nan 1 0 "NaN", "m2"⟩] :=
  ⟨rfl, _, _, rfl, rfl, rfl⟩


/-! ## C8: the default handler -/

/-- The record written for one more text passed to the logger. -/
theorem written_append (s : State) (line : String) (headers : List String) (header : String)
    (hlen : headers.length = s.log.length) :
    ({ s with log := s.log ++ [line] } : State).written (headers ++ [header])
      = s.written headers ++ [stdLoggerOutput header line] := by
  simp [State.written, List.zipWith_append _ _ _ _ _ hlen]

/-- C8, as amended.  Under a binding without handler, for every error that is
non-nil (with text `text`), hashable and not yet reported, that is, not found by
the lookup `handled[err]`: `Capture` returns and passes exactly one text to the
standard logger, `Error: <text>: <text>` with the error's own text twice;
`CaptureMessage` with message `m` returns and passes exactly the text
`Error: <m>: <text>`; `CaptureMessagef` does so with the formatted message,
whatever `fmt.Sprintf` makes of the format; no user handler is called.  What
each call writes to the log stream is one record: the header the logger makes
for it, then that text, then a newline when the text does not end in one. -/
theorem default_handler_fallback (other : String → List Arg → String) (s : State)
    (ctx : Context) (a : Nat) (b : errorHandler) (e : error) (k : ErrorKey)
    (text m msgFormat : String) (msgArgs : List Arg)
    (hr : Resolves s ctx a b) (hf : b.handlerFunc = none)
    (ht : e.Error = .ok text) (hk : e.mapKey = .ok k) (hnew : mapHas b.handled k = false) :
    (∃ s', Capture s ctx e = .ok s'
      ∧ s'.log = s.log ++ ["Error: " ++ text ++ ": " ++ text] ∧ s'.calls = s.calls
      ∧ ∀ headers header, headers.length = s.log.length →
          s'.written (headers ++ [header])
            = s.written headers ++ [stdLoggerOutput header ("Error: " ++ text ++ ": " ++ text)])
    ∧ (∃ s', CaptureMessage s ctx e m = .ok s'
      ∧ s'.log = s.log ++ ["Error: " ++ m ++ ": " ++ text] ∧ s'.calls = s.calls
      ∧ ∀ headers header, headers.length = s.log.length →
          s'.written (headers ++ [header])
            = s.written headers ++ [stdLoggerOutput header ("Error: " ++ m ++ ": " ++ text)])
    ∧ (∃ s', CaptureMessagef other s ctx e msgFormat msgArgs = .ok s'
      ∧ s'.log = s.log ++ ["Error: " ++ Sprintf other msgFormat msgArgs ++ ": " ++ text]
      ∧ s'.calls = s.calls
      ∧ ∀ headers header, headers.length = s.log.length →
          s'.written (headers ++ [header])
            = s.written headers ++ [stdLoggerOutput header
                ("Error: " ++ Sprintf other msgFormat msgArgs ++ ": " ++ text)]) := by
  have key : ∀ x : String, ∃ s', captureMessage s ctx e x = .ok s'
      ∧ s'.log = s.log ++ ["Error: " ++ x ++ ": " ++ text] ∧ s'.calls = s.calls
      ∧ ∀ headers header, headers.length = s.log.length →
          s'.written (headers ++ [header])
            = s.written headers ++ [stdLoggerOutput header ("Error: " ++ x ++ ": " ++ text)] := by
    intro x
    refine ⟨_, captureMessage_new_default s ctx e x text a b k hr hf hk hnew ht, rfl,
      by simp [State.store], ?_⟩
    intro headers header hlen
    simp [State.written, State.store, errorLine, List.zipWith_append _ _ _ _ _ hlen]
  refine ⟨?_, key m, key (Sprintf other msgFormat msgArgs)⟩
  rw [Capture_of_Error s ctx e text ht]
  exact key text

/-- C8 instantiated: `NewContext(background, nil)` and the error with text
`boom`, the logger printing no header. -/
theorem default_handler_fallback_witness :
    (∃ s', Capture (NewContext State.init Context.background none).2
        (NewContext State.init Context.background none).1 (error.dyn 1 0 true "boom") = .ok s'
      ∧ s'.log = ["Error: boom: boom"] ∧ s'.calls = []
      ∧ s'.written [""] = ["Error: boom: boom\n"])
    ∧ (∃ s', CaptureMessage (NewContext State.init Context.background none).2
        (NewContext State.init Context.background none).1 (error.dyn 1 0 true "boom")
        "lookup failed" = .ok s'
      ∧ s'.log = ["Error: lookup failed: boom"] ∧ s'.calls = []
      ∧ s'.written [""] = ["Error: lookup failed: boom\n"]) :=
  have h := default_handler_fallback (fun _ _ => "")
    (NewContext State.init Context.background none).2
    (NewContext State.init Context.background none).1 0
    { lock := false, handlerFunc := none, handled := [] } (error.dyn 1 0 true "boom")
    (ErrorKey.dyn 1 0) "boom" "lookup failed" "%s" []
    ⟨rfl, rfl, rfl⟩ rfl rfl rfl (by decide)
  ⟨h.1.imp fun _ h1 => ⟨h1.1, h1.2.1, h1.2.2.1, h1.2.2.2 [] "" rfl⟩,
    h.2.1.imp fun _ h1 => ⟨h1.1, h1.2.1, h1.2.2.1, h1.2.2.2 [] "" rfl⟩⟩

/-- C8 as stated fails.  Under a binding without handler, an unhashable error is
not yet reported and `Capture` panics at the map lookup; the nil error is not
yet reported either, and `Capture` panics at `err.Error()` while
`CaptureMessage` panics inside the default handler; nothing is logged.  And for
the error with text `boom`, which `Capture` does log, what is written to the log
stream is not exactly `Error: boom: boom`: with the default flags of the logger
the record starts with the date and the time, and with the flags cleared it
still ends in a newline. -/
theorem default_handler_not_for_every_error :
    Capture (NewContext State.init Context.background none).2
        (NewContext State.init Context.background none).1 (error.dyn 1 0 false "boom")
      = .error Failure.unhashableKey
    ∧ Capture (NewContext State.init Context.background none).2
        (NewContext State.init Context.background none).1 error.nil
      = .error Failure.nilDereference
    ∧ CaptureMessage (NewContext State.init Context.background none).2
        (NewContext State.init Context.background none).1 error.nil "lookup failed"
      = .error Failure.nilDereference
    ∧ ∃ s', Capture (NewContext State.init Context.background none).2
          (NewContext State.init Context.background none).1 (error.dyn 1 0 true "boom")
        = .ok s'
      ∧ s'.written ["2009/11/10 23:00:00 "] = ["2009/11/10 23:00:00 Error: boom: boom\n"]
      ∧ s'.written [""] = ["Error: boom: boom\n"]
      ∧ s'.written ["2009/11/10 23:00:00 "] ≠ ["Error: boom: boom"]
      ∧ s'.written [""] ≠ ["Error: boom: boom"] :=
  ⟨rfl, rfl, rfl, _, rfl, rfl, rfl, by decide, by decide⟩
/-! ## C9: the handler runs exactly on a new insertion -/

/-- C9, as amended.  For every context carrying a binding `b` (no capture in
progress), every message and every hashable error with key `k`, the nil error
excepted when `b` has no handler: the capture returns; a handler ran (a user
call was made or a line logged) if and only if `k` was not in the reported set
before (the lookup `handled[err]` did not find it); when it was not, exactly the
bound handler was called with the
arguments of the capture, or, without bound handler, exactly the default line
was logged; and in both cases the reported set afterwards is the set before
with `k` added. -/
theorem handler_runs_iff_new (s : State) (ctx : Context) (a : Nat) (b : errorHandler)
    (e : error) (k : ErrorKey) (m : String)
    (hr : Resolves s ctx a b) (hk : e.mapKey = .ok k)
    (hd : b.handlerFunc = none → e ≠ error.nil) :
    ∃ s', CaptureMessage s ctx e m = .ok s'
      ∧ ((s'.calls ≠ s.calls ∨ s'.log ≠ s.log) ↔ mapHas b.handled k = false)
      ∧ (mapHas b.handled k = false → ∀ f, b.handlerFunc = some f →
          s'.calls = s.calls ++ [⟨f, ctx, e, m⟩] ∧ s'.log = s.log)
      ∧ (mapHas b.handled k = false → b.handlerFunc = none →
          ∃ t, e.Error = .ok t ∧ s'.calls = s.calls
            ∧ s'.log = s.log ++ ["Error: " ++ m ++ ": " ++ t])
      ∧ (∀ x, x ∈ s'.handledAt a ↔ x = k ∨ x ∈ b.handled) := by
  cases hin : mapHas b.handled k with
  | true =>
    refine ⟨s, captureMessage_seen s ctx e m a b k hr hk hin, ?_, ?_, ?_, ?_⟩
    · simp
    · intro h; cases h
    · intro h; cases h
    · intro x
      simp only [State.handledAt, hr.2.1]
      constructor
      · exact Or.inr
      · rintro (rfl | h)
        · exact mem_of_mapHas _ _ hin
        · exact h
  | false =>
    have hopt : b.handlerFunc = none ∨ ∃ f, b.handlerFunc = some f := by
      cases b.handlerFunc with
      | none => exact Or.inl rfl
      | some f => exact Or.inr ⟨f, rfl⟩
    have hset : ∀ s' : State, s'.heap = s.heap.set a { b with handled := k :: b.handled } →
        ∀ x, x ∈ s'.handledAt a ↔ x = k ∨ x ∈ b.handled := by
      intro s' hs' x
      have hlt : a < s.heap.length := by
        by_contra hge
        have := hr.2.1
        rw [List.getElem?_eq_none (Nat.le_of_not_lt hge)] at this
        cases this
      simp [State.handledAt, hs', List.getElem?_set_self hlt]
    rcases hopt with hf | ⟨f, hf⟩
    · cases e with
      | nil => exact absurd rfl (hd hf)
      | dyn typ value hashable text =>
        refine ⟨_, captureMessage_new_default s ctx _ m text a b k hr hf hk hin rfl,
          ?_, ?_, ?_, hset _ rfl⟩
        · simp [State.store]
        · intro _ f' hf'
          rw [hf] at hf'
          cases hf'
        · intro _ _
          exact ⟨text, rfl, by simp [State.store], rfl⟩
      | nan typ value text =>
        refine ⟨_, captureMessage_new_default s ctx _ m text a b k hr hf hk hin rfl,
          ?_, ?_, ?_, hset _ rfl⟩
        · simp [State.store]
        · intro _ f' hf'
          rw [hf] at hf'
          cases hf'
        · intro _ _
          exact ⟨text, rfl, by simp [State.store], rfl⟩
    · refine ⟨_, captureMessage_new_user s ctx e m a b k f hr hf hk hin, ?_, ?_, ?_, hset _ rfl⟩
      · simp [callHandler, State.store]
      · intro _ f' hf'
        rw [hf] at hf'
        cases hf'
        exact ⟨by simp [callHandler, State.store], by simp [callHandler, State.store]⟩
      · intro _ hnone
        rw [hf] at hnone
        cases hnone

/-- C9 instantiated twice on a binding with handler 7 that has reported one
error: a second error is new, the first one is not. -/
theorem handler_runs_iff_new_witness :
    (∃ s', CaptureMessage ⟨[⟨false, some 7, [ErrorKey.dyn 1 0]⟩], [], []⟩
        (NewContext State.init Context.background (some 7)).1 (error.dyn 2 0 true "b") "m" = .ok s'
      ∧ ((s'.calls ≠ [] ∨ s'.log ≠ []) ↔ mapHas [ErrorKey.dyn 1 0] (ErrorKey.dyn 2 0) = false)
      ∧ (∀ x, x ∈ s'.handledAt 0 ↔ x = ErrorKey.dyn 2 0 ∨ x ∈ [ErrorKey.dyn 1 0])) :=
  have h := handler_runs_iff_new ⟨[⟨false, some 7, [ErrorKey.dyn 1 0]⟩], [], []⟩
    (NewContext State.init Context.background (some 7)).1 0
    ⟨false, some 7, [ErrorKey.dyn 1 0]⟩ (error.dyn 2 0 true "b") (ErrorKey.dyn 2 0) "m"
    ⟨rfl, rfl, rfl⟩ rfl (by decide)
  h.imp fun _ h' => ⟨h'.1, h'.2.1, h'.2.2.2.2⟩

/-- C9 as stated fails: an error with an unhashable dynamic value is not in the
reported set of a fresh binding, yet its capture panics at the map lookup
instead of calling the handler and adding it. -/
theorem handler_runs_not_for_every_error :
    (NewContext State.init Context.background (some 7)).2.handledAt 0 = []
    ∧ CaptureMessage (NewContext State.init Context.background (some 7)).2
        (NewContext State.init Context.background (some 7)).1 (error.dyn 1 0 false "boom") "m"
      = .error Failure.unhashableKey := by
  refine ⟨rfl, rfl⟩

/-! ## C10: `Capture` is `CaptureMessage` with the error's own text -/

/-- C10.  For every state, context and error value, `Capture(ctx, err)` is the
call `CaptureMessage(ctx, err, err.Error())`: both fail in the same way or
return the same state, hence make the same handler call with the same
arguments; for a non-nil error, whatever its dynamic value, the message passed
is its text. -/
theorem Capture_eq_CaptureMessage (s : State) (ctx : Context) (e : error) :
    Capture s ctx e = CaptureSpec s ctx e
    ∧ (∀ typ value hashable text, e = error.dyn typ value hashable text →
        Capture s ctx e = CaptureMessage s ctx e text)
    ∧ (∀ text, e.Error = .ok text → Capture s ctx e = CaptureMessage s ctx e text) := by
  refine ⟨rfl, ?_, ?_⟩
  · intro typ value hashable text he
    subst he
    rfl
  · intro text ht
    exact Capture_of_Error s ctx e text ht

/-! ## C11: the formatted message -/

theorem mapKey_of_hashable (e : error) (h : e.hashable = true) : e.mapKey = .ok e.key := by
  cases e with
  | nil => rfl
  | dyn typ value hashable text =>
    simp only [error.hashable] at h
    subst h
    rfl
  | nan typ value text => rfl

theorem mapKey_eq_key (e : error) (k : ErrorKey) (h : e.mapKey = .ok k) : k = e.key := by
  cases e with
  | nil => exact (Except.ok.inj h).symm
  | dyn typ value hashable text =>
    cases hashable with
    | true => exact (Except.ok.inj h).symm
    | false => cases h
  | nan typ value text => exact (Except.ok.inj h).symm

/-- The format of the interface example lies in the modelled part of
`fmt.Sprintf`: the result does not depend on the rest of the function. -/
theorem Sprintf_widget (other : String → List Arg → String) :
    Sprintf other "failed on %s item %d" [Arg.str "widget", Arg.int 5]
      = "failed on widget item 5" := by
  rfl

/-- C11, as amended.  For every context carrying a binding `b` (no capture in
progress), every format string and operands of any type, and every hashable
error not yet reported under `b`, that is, not found by the lookup
`handled[err]` (non-nil when `b` has no handler): whatever `fmt.Sprintf` does
outside its modelled part, `CaptureMessagef` is the call `CaptureMessage` with
the message `Sprintf(format, operands)`; it returns, and the handler receives
exactly that formatted string as its message (the default handler logs it in its
line).  In particular the format `failed on %s item %d` with operands `widget`
and `5` gives the handler the message `failed on widget item 5`. -/
theorem CaptureMessagef_message (other : String → List Arg → String) (s : State)
    (ctx : Context) (a : Nat) (b : errorHandler)
    (e : error) (k : ErrorKey) (msgFormat : String) (msgArgs : List Arg)
    (hr : Resolves s ctx a b) (hk : e.mapKey = .ok k) (hnew : mapHas b.handled k = false)
    (hd : b.handlerFunc = none → e ≠ error.nil) :
    CaptureMessagef other s ctx e msgFormat msgArgs
      = CaptureMessage s ctx e (Sprintf other msgFormat msgArgs)
    ∧ (∃ s', CaptureMessagef other s ctx e msgFormat msgArgs = .ok s'
        ∧ (∀ f, b.handlerFunc = some f →
            s'.calls = s.calls ++ [⟨f, ctx, e, Sprintf other msgFormat msgArgs⟩]
            ∧ s'.log = s.log)
        ∧ (b.handlerFunc = none → ∃ t, e.Error = .ok t ∧ s'.calls = s.calls
            ∧ s'.log = s.log ++ ["Error: " ++ Sprintf other msgFormat msgArgs ++ ": " ++ t]))
    ∧ Sprintf other "failed on %s item %d" [Arg.str "widget", Arg.int 5]
        = "failed on widget item 5"
    ∧ (∀ f, b.handlerFunc = some f →
        ∃ s', CaptureMessagef other s ctx e "failed on %s item %d"
            [Arg.str "widget", Arg.int 5] = .ok s'
          ∧ s'.calls = s.calls ++ [⟨f, ctx, e, "failed on widget item 5"⟩]) := by
  have hopt : b.handlerFunc = none ∨ ∃ f, b.handlerFunc = some f := by
    cases b.handlerFunc with
    | none => exact Or.inl rfl
    | some f => exact Or.inr ⟨f, rfl⟩
  refine ⟨rfl, ?_, rfl, ?_⟩
  · rcases hopt with hf | ⟨f, hf⟩
    · cases e with
      | nil => exact absurd rfl (hd hf)
      | dyn typ value hashable text =>
        refine ⟨_, captureMessage_new_default s ctx _ _ text a b k hr hf hk hnew rfl, ?_, ?_⟩
        · intro f' hf'
          rw [hf] at hf'
          cases hf'
        · intro _
          exact ⟨text, rfl, by simp [State.store], rfl⟩
      | nan typ value text =>
        refine ⟨_, captureMessage_new_default s ctx _ _ text a b k hr hf hk hnew rfl, ?_, ?_⟩
        · intro f' hf'
          rw [hf] at hf'
          cases hf'
        · intro _
          exact ⟨text, rfl, by simp [State.store], rfl⟩
    · refine ⟨_, captureMessage_new_user s ctx e _ a b k f hr hf hk hnew, ?_, ?_⟩
      · intro f' hf'
        rw [hf] at hf'
        cases hf'
        exact ⟨by simp [callHandler, State.store], by simp [callHandler, State.store]⟩
      · intro hnone
        rw [hf] at hnone
        cases hnone
  · intro f hf
    refine ⟨_, captureMessage_new_user s ctx e _ a b k f hr hf hk hnew, ?_⟩
    rw [Sprintf_widget other]
    simp [callHandler, State.store]

/-- C11 instantiated: a fresh binding with handler 7; the format of the
interface example, and a format with a width and a verb outside the modelled
part, for which the handler receives what the rest of `fmt.Sprintf` gives. -/
theorem CaptureMessagef_message_witness :
    (∃ s', CaptureMessagef (fun _ _ => "    5|6")
        (NewContext State.init Context.background (some 7)).2
        (NewContext State.init Context.background (some 7)).1 (error.dyn 1 0 true "boom")
        "failed on %s item %d" [Arg.str "widget", Arg.int 5] = .ok s'
      ∧ s'.calls = [⟨7, (NewContext State.init Context.background (some 7)).1,
          error.dyn 1 0 true "boom", "failed on widget item 5"⟩])
    ∧ (∃ s', CaptureMessagef (fun _ _ => "    5|6")
        (NewContext State.init Context.background (some 7)).2
        (NewContext State.init Context.background (some 7)).1 (error.dyn 1 0 true "boom")
        "%5d|%x" [Arg.int 5, Arg.int 6] = .ok s'
      ∧ s'.calls = [⟨7, (NewContext State.init Context.background (some 7)).1,
          error.dyn 1 0 true "boom", "    5|6"⟩]) :=
  have h := CaptureMessagef_message (fun _ _ => "    5|6")
    (NewContext State.init Context.background (some 7)).2
    (NewContext State.init Context.background (some 7)).1 0
    { lock := false, handlerFunc := some 7, handled := [] }
    (error.dyn 1 0 true "boom") (ErrorKey.dyn 1 0) "%5d|%x" [Arg.int 5, Arg.int 6]
    ⟨rfl, rfl, rfl⟩ rfl (by decide) (by decide)
  ⟨h.2.2.2 7 rfl, h.2.1.imp fun _ h1 => ⟨h1.1, (h1.2.1 7 rfl).1⟩⟩

/-- C11 as stated fails: an unhashable error is not yet reported under a fresh
binding, yet `CaptureMessagef` panics at the map lookup and the handler receives
no message. -/
theorem CaptureMessagef_not_for_every_error :
    CaptureMessagef (fun _ _ => "") (NewContext State.init Context.background (some 7)).2
        (NewContext State.init Context.background (some 7)).1 (error.dyn 1 0 false "boom")
        "failed on %s item %d" [Arg.str "widget", Arg.int 5]
      = .error Failure.unhashableKey := by
  rfl

/-! ## C13: the deduplication key -/

/-- C13, as amended.  Under one binding with user handler `f` (no capture in
progress), for two hashable error values neither of which is reported yet (the
lookup finds neither), two captures in a row return and call `f` once when the
values are `==` (same dynamic type and equal dynamic values), whatever their
texts and messages, and twice, once for each, when they are not, whatever their
texts. -/
theorem dedup_by_go_equality (s : State) (ctx : Context) (a : Nat) (b : errorHandler) (f : Nat)
    (e1 e2 : error) (m1 m2 : String)
    (hr : Resolves s ctx a b) (hf : b.handlerFunc = some f)
    (hh1 : e1.hashable = true) (hh2 : e2.hashable = true)
    (hn1 : mapHas b.handled e1.key = false) (hn2 : mapHas b.handled e2.key = false) :
    ∃ s1 s2, CaptureMessage s ctx e1 m1 = .ok s1 ∧ CaptureMessage s1 ctx e2 m2 = .ok s2
      ∧ (e1.key.eq e2.key = true → s2.calls = s.calls ++ [⟨f, ctx, e1, m1⟩])
      ∧ (e1.key.eq e2.key = false →
          s2.calls = s.calls ++ [⟨f, ctx, e1, m1⟩, ⟨f, ctx, e2, m2⟩]) := by
  have hk1 := mapKey_of_hashable e1 hh1
  have hk2 := mapKey_of_hashable e2 hh2
  have h1 := captureMessage_new_user s ctx e1 m1 a b e1.key f hr hf hk1 hn1
  have hr1 : Resolves (callHandler (s.store a { b with handled := e1.key :: b.handled }) f ctx e1 m1)
      ctx a { b with handled := e1.key :: b.handled } :=
    resolves_callHandler _ ctx ctx a _ f e1 m1 (resolves_store s ctx a b _ hr hr.2.2)
  cases heq : e1.key.eq e2.key with
  | true =>
    have hin : mapHas ({ b with handled := e1.key :: b.handled } : errorHandler).handled e2.key
        = true := by
      simp [mapHas_cons, heq]
    refine ⟨_, _, h1, captureMessage_seen _ ctx e2 m2 a _ e2.key hr1 hk2 hin, ?_, ?_⟩
    · intro _
      simp [callHandler, State.store]
    · intro hne
      cases hne
  | false =>
    have hnin : mapHas ({ b with handled := e1.key :: b.handled } : errorHandler).handled e2.key
        = false := by
      simp [mapHas_cons, heq, hn2]
    refine ⟨_, _, h1, captureMessage_new_user _ ctx e2 m2 a _ e2.key f hr1 hf hk2 hnin, ?_, ?_⟩
    · intro h
      cases h
    · intro _
      simp [callHandler, State.store]

/-- C13 instantiated three times on a fresh binding with handler 7: two values
of one dynamic type with the same text but different dynamic values are both
reported; one value captured with two different messages and two different
texts is reported once; one value that holds a NaN, which is not `==` to
itself, is reported twice. -/
theorem dedup_by_go_equality_witness :
    (∃ s1 s2,
      CaptureMessage (NewContext State.init Context.background (some 7)).2
        (NewContext State.init Context.background (some 7)).1 (error.dyn 1 0 true "boom") "m1"
        = .ok s1
      ∧ CaptureMessage s1 (NewContext State.init Context.background (some 7)).1
        (error.dyn 1 1 true "boom") "m2" = .ok s2
      ∧ s2.calls = [⟨7, (NewContext State.init Context.background (some 7)).1,
            error.dyn 1 0 true "boom", "m1"⟩,
          ⟨7, (NewContext State.init Context.background (some 7)).1,
            error.dyn 1 1 true "boom", "m2"⟩])
    ∧ (∃ s1 s2,
      CaptureMessage (NewContext State.init Context.background (some 7)).2
        (NewContext State.init Context.background (some 7)).1 (error.dyn 1 0 true "boom") "m1"
        = .ok s1
      ∧ CaptureMessage s1 (NewContext State.init Context.background (some 7)).1
        (error.dyn 1 0 true "bang") "m2" = .ok s2
      ∧ s2.calls = [⟨7, (NewContext State.init Context.background (some 7)).1,
            error.dyn 1 0 true "boom", "m1"⟩])
    ∧ (∃ s1 s2,
      CaptureMessage (NewContext State.init Context.background (some 7)).2
        (NewContext State.init Context.background (some 7)).1 (error.nan 1 0 "NaN") "m1"
        = .ok s1
      ∧ CaptureMessage s1 (NewContext State.init Context.background (some 7)).1
        (error.nan 1 0 "NaN") "m2" = .ok s2
      ∧ s2.calls = [⟨7, (NewContext State.init Context.background (some 7)).1,
            error.nan 1 0 "NaN", "m1"⟩,
          ⟨7, (NewContext State.init Context.background (some 7)).1,
            error.nan 1 0 "NaN", "m2"⟩]) :=
  ⟨(dedup_by_go_equality (NewContext State.init Context.background (some 7)).2
      (NewContext State.init Context.background (some 7)).1 0
      { lock := false, handlerFunc := some 7, handled := [] } 7
      (error.dyn 1 0 true "boom") (error.dyn 1 1 true "boom") "m1" "m2"
      ⟨rfl, rfl, rfl⟩ rfl rfl rfl (by decide) (by decide)).imp
      fun _ h => h.imp fun _ h' => ⟨h'.1, h'.2.1, h'.2.2.2 (by decide)⟩,
   (dedup_by_go_equality (NewContext State.init Context.background (some 7)).2
      (NewContext State.init Context.background (some 7)).1 0
      { lock := false, handlerFunc := some 7, handled := [] } 7
      (error.dyn 1 0 true "boom") (error.dyn 1 0 true "bang") "m1" "m2"
      ⟨rfl, rfl, rfl⟩ rfl rfl rfl (by decide) (by decide)).imp
      fun _ h => h.imp fun _ h' => ⟨h'.1, h'.2.1, h'.2.2.1 (by decide)⟩,
   (dedup_by_go_equality (NewContext State.init Context.background (some 7)).2
      (NewContext State.init Context.background (some 7)).1 0
      { lock := false, handlerFunc := some 7, handled := [] } 7
      (error.nan 1 0 "NaN") (error.nan 1 0 "NaN") "m1" "m2"
      ⟨rfl, rfl, rfl⟩ rfl rfl rfl (by decide) (by decide)).imp
      fun _ h => h.imp fun _ h' => ⟨h'.1, h'.2.1, h'.2.2.2 (by decide)⟩⟩

/-- C13 as stated fails: a hashable error and an unhashable error of another
dynamic type are not `==`, so two handler calls are claimed; the capture of the
hashable one calls the handler once and the capture of the other panics at the
map lookup. -/
theorem dedup_by_go_equality_not_for_every_error :
    (error.dyn 2 0 true "boom").key.eq (error.dyn 1 0 false "boom").key = false
    ∧ CaptureMessage (NewContext State.init Context.background (some 7)).2
        (NewContext State.init Context.background (some 7)).1 (error.dyn 2 0 true "boom") "m1"
      = .ok ⟨[⟨false, some 7, [ErrorKey.dyn 2 0]⟩],
          [⟨7, (NewContext State.init Context.background (some 7)).1,
            error.dyn 2 0 true "boom", "m1"⟩], []⟩
    ∧ CaptureMessage ⟨[⟨false, some 7, [ErrorKey.dyn 2 0]⟩],
          [⟨7, (NewContext State.init Context.background (some 7)).1,
            error.dyn 2 0 true "boom", "m1"⟩], []⟩
        (NewContext State.init Context.background (some 7)).1 (error.dyn 1 0 false "boom") "m2"
      = .error Failure.unhashableKey := by
  refine ⟨by decide, rfl, rfl⟩

/-! ## C12: the reported set only grows -/

theorem NewContext_handledAt (s : State) (p : Context) (h : ErrorHandlerFunc) (a : Nat) :
    (NewContext s p h).2.handledAt a = s.handledAt a := by
  simp only [State.handledAt, NewContext]
  by_cases hlt : a < s.heap.length
  · rw [List.getElem?_append_left hlt]
  · have hge : s.heap.length ≤ a := Nat.le_of_not_lt hlt
    rw [List.getElem?_eq_none hge, List.getElem?_append_right hge]
    by_cases h0 : a - s.heap.length = 0
    · simp [h0]
    · have : ([{ lock := false, handlerFunc := h, handled := [] }] : List errorHandler)[a - s.heap.length]?
          = none := by
        apply List.getElem?_eq_none
        simp
        omega
      rw [this]

/-- What a returning capture does to the reported set at any address: nothing is
removed, and what is added is the key of the captured error. -/
theorem captureMessage_handledAt (s s' : State) (ctx : Context) (e : error) (m : String)
    (a : Nat) (h : captureMessage s ctx e m = .ok s') :
    (∀ x ∈ s.handledAt a, x ∈ s'.handledAt a)
    ∧ (∀ x ∈ s'.handledAt a, x ∈ s.handledAt a ∨ x = e.key) := by
  have hstore : ∀ (a0 : Nat) (b : errorHandler) (k : ErrorKey) (t : State),
      s.heap[a0]? = some b → t.heap = s.heap.set a0 { b with handled := k :: b.handled } →
      k = e.key →
      (∀ x ∈ s.handledAt a, x ∈ t.handledAt a)
      ∧ (∀ x ∈ t.handledAt a, x ∈ s.handledAt a ∨ x = e.key) := by
    intro a0 b k t hb ht hk
    simp only [State.handledAt, ht]
    by_cases ha : a0 = a
    · subst ha
      have hlt : a0 < s.heap.length := getElem?_lt s.heap a0 b hb
      rw [List.getElem?_set_self hlt, hb]
      simp only
      constructor
      · intro x hx
        exact List.mem_cons_of_mem _ hx
      · intro x hx
        rcases List.mem_cons.mp hx with h1 | h1
        · exact Or.inr (h1.trans hk)
        · exact Or.inl h1
    · rw [List.getElem?_set_ne ha]
      exact ⟨fun x hx => hx, fun x hx => Or.inl hx⟩
  rcases captureMessage_ok_cases s s' ctx e m h with h0 | ⟨a0, b, k, hr, hk, _, h1 | h1⟩
  · rw [h0]
    exact ⟨fun x hx => hx, fun x hx => Or.inl hx⟩
  · obtain ⟨f, _, hs⟩ := h1
    exact hstore a0 b k s' hr.2.1 (by rw [hs]; rfl) (mapKey_eq_key e k hk)
  · obtain ⟨t, _, _, hs⟩ := h1
    exact hstore a0 b k s' hr.2.1 (by rw [hs]; rfl) (mapKey_eq_key e k hk)

theorem Op_run_handledAt (other : String → List Arg → String) (s s' : State) (op : Op)
    (a : Nat) (h : op.run other s = .ok s') :
    (∀ x ∈ s.handledAt a, x ∈ s'.handledAt a)
    ∧ (∀ x ∈ s'.handledAt a, x ∈ s.handledAt a ∨ ∃ e, op.err = some e ∧ x = e.key) := by
  have lift : ∀ (ctx : Context) (e : error) (m : String), captureMessage s ctx e m = .ok s' →
      op.err = some e →
      (∀ x ∈ s.handledAt a, x ∈ s'.handledAt a)
      ∧ (∀ x ∈ s'.handledAt a, x ∈ s.handledAt a ∨ ∃ e, op.err = some e ∧ x = e.key) := by
    intro ctx e m hc he
    have := captureMessage_handledAt s s' ctx e m a hc
    refine ⟨this.1, fun x hx => ?_⟩
    rcases this.2 x hx with h1 | h1
    · exact Or.inl h1
    · exact Or.inr ⟨e, he, h1⟩
  cases op with
  | NewContext ctx errHandler =>
    have hs : s' = (NewContext s ctx errHandler).2 := (Except.ok.inj h).symm
    rw [hs, NewContext_handledAt]
    exact ⟨fun x hx => hx, fun x hx => Or.inl hx⟩
  | Capture ctx err =>
    cases err with
    | nil => cases h
    | dyn typ value hashable text => exact lift ctx _ text h rfl
    | nan typ value text => exact lift ctx _ text h rfl
  | CaptureMessage ctx err msg => exact lift ctx err msg h rfl
  | CaptureMessagef ctx err msgFormat msgArgs => exact lift ctx err _ h rfl

theorem runOps_handledAt (other : String → List Arg → String) (ops : List Op) (s s' : State)
    (a : Nat) (h : runOps other s ops = .ok s') :
    ∀ x ∈ s.handledAt a, x ∈ s'.handledAt a := by
  induction ops generalizing s with
  | nil =>
    have hs : s' = s := (Except.ok.inj h).symm
    rw [hs]
    exact fun x hx => hx
  | cons op ops ih =>
    cases h1 : op.run other s with
    | error f => simp [runOps, h1, bind, Except.bind] at h
    | ok s1 =>
      simp only [runOps, h1, bind, Except.bind] at h
      intro x hx
      exact ih s1 h x ((Op_run_handledAt other s s1 op a h1).1 x hx)

/-- C12.  For every state, every binding address and every call of the library
(`NewContext`, `Capture`, `CaptureMessage`, `CaptureMessagef`, with any
arguments, through any context, whatever `fmt.Sprintf` makes of a format) that
returns: every error reported before the
call is reported after it; an element of the reported set that was not there
before is the key of the error the call captured (so `NewContext` adds nothing
and a capture adds at most its own error); and the set keeps growing over any
further sequence of calls. -/
theorem reported_set_monotone (other : String → List Arg → String) (s s1 : State) (op : Op)
    (a : Nat) (h : op.run other s = .ok s1) :
    (∀ x ∈ s.handledAt a, x ∈ s1.handledAt a)
    ∧ (∀ x ∈ s1.handledAt a, x ∈ s.handledAt a ∨ ∃ e, op.err = some e ∧ x = e.key)
    ∧ (∀ (ops : List Op) (s2 : State), runOps other s1 ops = .ok s2 →
        ∀ x ∈ s1.handledAt a, x ∈ s2.handledAt a) :=
  ⟨(Op_run_handledAt other s s1 op a h).1, (Op_run_handledAt other s s1 op a h).2,
    fun ops s2 h2 => runOps_handledAt other ops s1 s2 a h2⟩

/-- C12 instantiated: on a binding that has reported one error, the capture of a
second one keeps the first and adds the second. -/
theorem reported_set_monotone_witness :
    (∀ x ∈ [ErrorKey.dyn 1 0], x ∈ [ErrorKey.dyn 2 0, ErrorKey.dyn 1 0])
    ∧ (∀ x ∈ [ErrorKey.dyn 2 0, ErrorKey.dyn 1 0],
        x ∈ [ErrorKey.dyn 1 0] ∨ ∃ e, some (error.dyn 2 0 true "b") = some e ∧ x = e.key) :=
  have h := reported_set_monotone (fun _ _ => "")
    ⟨[⟨false, some 7, [ErrorKey.dyn 1 0]⟩],
      [⟨7, (NewContext State.init Context.background (some 7)).1,
        error.dyn 1 0 true "a", "first"⟩], []⟩
    ⟨[⟨false, some 7, [ErrorKey.dyn 2 0, ErrorKey.dyn 1 0]⟩],
      [⟨7, (NewContext State.init Context.background (some 7)).1,
        error.dyn 1 0 true "a", "first"⟩,
       ⟨7, (NewContext State.init Context.background (some 7)).1,
        error.dyn 2 0 true "b", "second"⟩], []⟩
    (Op.CaptureMessage (NewContext State.init Context.background (some 7)).1
      (error.dyn 2 0 true "b") "second") 0 rfl
  ⟨h.1, h.2.1⟩

/-! ## C16: the first occurrence wins -/

/-- C16, as amended.  For every finite sequence of calls
`CaptureMessage(ctx_i, e_i, m_i)` with hashable errors whose contexts all carry
one binding with user handler `f` (no capture in progress): all calls return,
nothing is logged, and the calls of `f` that were added are, in order, the
calls of the sequence whose error is neither reported when the sequence starts
nor passed by an earlier call (`==` to no key of the reported set and to no
earlier error), each with exactly the context, error and
message of that call; with an empty reported set at the start these are the
first occurrences in the sequence.  A later call with an error already passed
leaves no trace of its message. -/
theorem first_occurrence_wins (s : State) (a : Nat) (b : errorHandler) (f : Nat)
    (calls : List Call)
    (hb : s.heap[a]? = some b) (hl : b.lock = false) (hf : b.handlerFunc = some f)
    (hctx : ∀ c ∈ calls,
      c.ctx.Value (CtxKey.lib errHandlerContextKey) = .ok (some (CtxValue.errorHandlerPtr a)))
    (hh : ∀ c ∈ calls, c.err.hashable = true) :
    ∃ s', captureAll s calls = .ok s'
      ∧ s'.calls = s.calls
          ++ (firstOccurrences b.handled calls).map (fun c => ⟨f, c.ctx, c.err, c.msg⟩)
      ∧ s'.log = s.log := by
  induction calls generalizing s b with
  | nil => exact ⟨s, rfl, by simp [firstOccurrences], rfl⟩
  | cons c cs ih =>
    have hr : Resolves s c.ctx a b := ⟨hctx c (List.mem_cons_self _ _), hb, hl⟩
    have hk := mapKey_of_hashable c.err (hh c (List.mem_cons_self _ _))
    have hctx' : ∀ c' ∈ cs,
        c'.ctx.Value (CtxKey.lib errHandlerContextKey)
          = .ok (some (CtxValue.errorHandlerPtr a)) :=
      fun c' hc' => hctx c' (List.mem_cons_of_mem _ hc')
    have hh' : ∀ c' ∈ cs, c'.err.hashable = true :=
      fun c' hc' => hh c' (List.mem_cons_of_mem _ hc')
    cases hin : mapHas b.handled c.err.key with
    | true =>
      have h1 : CaptureMessage s c.ctx c.err c.msg = .ok s :=
        captureMessage_seen s c.ctx c.err c.msg a b _ hr hk hin
      obtain ⟨s', hs', hc, hlog⟩ := ih s b hb hl hf hctx' hh'
      refine ⟨s', ?_, ?_, hlog⟩
      · simp only [captureAll, h1, bind, Except.bind]
        exact hs'
      · simp only [firstOccurrences, hin, if_true]
        exact hc
    | false =>
      have h1 : CaptureMessage s c.ctx c.err c.msg = _ :=
        captureMessage_new_user s c.ctx c.err c.msg a b _ f hr hf hk hin
      have hb1 : (callHandler (s.store a { b with handled := c.err.key :: b.handled }) f
          c.ctx c.err c.msg).heap[a]? = some { b with handled := c.err.key :: b.handled } :=
        store_getElem? s a b _ hb
      obtain ⟨s', hs', hc, hlog⟩ := ih _ { b with handled := c.err.key :: b.handled } hb1 hl hf
        hctx' hh'
      refine ⟨s', ?_, ?_, ?_⟩
      · simp only [captureAll, h1, bind, Except.bind]
        exact hs'
      · simp only [firstOccurrences, hin, Bool.false_eq_true, if_false]
        rw [hc]
        simp [callHandler, State.store]
      · rw [hlog]
        simp [callHandler, State.store]

/-- C16 instantiated on a fresh binding with handler 7: an error captured
through the bound context, another one through a derived context, and the
first one again with a new message; the handler is called for the first two
calls with their own contexts, and the third message is dropped. -/
theorem first_occurrence_wins_witness :
    ∃ s', captureAll (NewContext State.init Context.background (some 7)).2
        [⟨(NewContext State.init Context.background (some 7)).1, error.dyn 1 0 true "a", "first"⟩,
         ⟨Context.withCancel (NewContext State.init Context.background (some 7)).1,
          error.dyn 2 0 true "b", "second"⟩,
         ⟨(NewContext State.init Context.background (some 7)).1, error.dyn 1 0 true "a", "third"⟩]
        = .ok s'
      ∧ s'.calls =
        [⟨7, (NewContext State.init Context.background (some 7)).1, error.dyn 1 0 true "a",
          "first"⟩,
         ⟨7, Context.withCancel (NewContext State.init Context.background (some 7)).1,
          error.dyn 2 0 true "b", "second"⟩] :=
  (first_occurrence_wins (NewContext State.init Context.background (some 7)).2 0
    { lock := false, handlerFunc := some 7, handled := [] } 7
    [⟨(NewContext State.init Context.background (some 7)).1, error.dyn 1 0 true "a", "first"⟩,
     ⟨Context.withCancel (NewContext State.init Context.background (some 7)).1,
      error.dyn 2 0 true "b", "second"⟩,
     ⟨(NewContext State.init Context.background (some 7)).1, error.dyn 1 0 true "a", "third"⟩]
    rfl rfl rfl (by simp [NewContext, Context.Value, State.init]) (by decide)).imp
    fun _ h => ⟨h.1, h.2.1⟩

/-- C16 as stated fails: in a sequence of two calls on a fresh binding whose
second error is unhashable, the second call panics at the map lookup, so the
run ends without the handler call claimed for that first occurrence. -/
theorem first_occurrence_not_for_every_error :
    captureAll (NewContext State.init Context.background (some 7)).2
        [⟨(NewContext State.init Context.background (some 7)).1, error.dyn 1 0 true "a", "first"⟩,
         ⟨(NewContext State.init Context.background (some 7)).1, error.dyn 2 0 false "b",
          "second"⟩]
      = .error Failure.unhashableKey := by
  rfl

/-! ## C17: the error is marked before its handler runs -/

/-- With handlers that make no captures, the nested model is the plain one. -/
theorem captureMessageR_plain (fuel : Nat) (s : State) (ctx : Context) (e : error) (m : String) :
    captureMessageR (fun _ => []) (fuel + 1) s ctx e m = some (captureMessage s ctx e m) := by
  cases hv : ctx.Value (CtxKey.lib errHandlerContextKey) with
  | error x => simp [captureMessageR, captureMessage, hv]
  | ok v =>
  cases v with
  | none => simp [captureMessageR, captureMessage, hv]
  | some v =>
    cases v with
    | other n => simp [captureMessageR, captureMessage, hv]
    | errorHandlerPtr a =>
      cases hb : s.heap[a]? with
      | none => simp [captureMessageR, captureMessage, hv, hb]
      | some b =>
        cases hl : b.Lock with
        | error x => simp [captureMessageR, captureMessage, hv, hb, hl, bind, Except.bind]
        | ok locked =>
          cases hk : e.mapKey with
          | error x => simp [captureMessageR, captureMessage, hv, hb, hl, hk, bind, Except.bind]
          | ok k =>
            cases hin : mapHas locked.handled k with
            | true =>
              simp [captureMessageR, captureMessage, hv, hb, hl, hk, bind, Except.bind, hin]
            | false =>
              cases hf : b.handlerFunc with
              | none =>
                simp [captureMessageR, captureMessage, hv, hb, hl, hk, bind, Except.bind, hin, hf]
              | some f =>
                simp [captureMessageR, captureMessage, hv, hb, hl, hk, bind, Except.bind, hin, hf,
                  runBody, pure, Except.pure]

/-- An error the lookup finds: the nested model returns the state unchanged. -/
theorem captureMessageR_seen (bodies : HandlerBodies) (fuel : Nat) (s : State) (ctx : Context)
    (e : error) (m : String) (a : Nat) (b : errorHandler) (k : ErrorKey)
    (hr : Resolves s ctx a b) (hk : e.mapKey = .ok k) (hin : mapHas b.handled k = true) :
    captureMessageR bodies (fuel + 1) s ctx e m = some (.ok s) := by
  obtain ⟨hv, hb, hl⟩ := hr
  have hb' : ({ b with lock := false } : errorHandler) = b := by
    cases b; simp_all
  simp [captureMessageR, hv, hb, errorHandler.Lock, hl, hk, hin, pure, Except.pure,
    errorHandler.Unlock, hb', store_same s a b hb]

/-- A new error under a binding with a user handler: the error is marked, the
mutex released, the call recorded, and then the body of the handler runs from
that state. -/
theorem captureMessageR_new (bodies : HandlerBodies) (fuel : Nat) (s : State) (ctx : Context)
    (e : error) (m : String) (a : Nat) (b : errorHandler) (k : ErrorKey) (f : Nat)
    (hr : Resolves s ctx a b) (hf : b.handlerFunc = some f)
    (hk : e.mapKey = .ok k) (hnew : mapHas b.handled k = false) :
    captureMessageR bodies (fuel + 1) s ctx e m
      = runBody (captureMessageR bodies fuel)
          (callHandler (s.store a { b with handled := k :: b.handled }) f ctx e m) ctx
          (bodies f) := by
  obtain ⟨hv, hb, hl⟩ := hr
  have hb' : ({ lock := false, handlerFunc := b.handlerFunc, handled := k :: b.handled }
      : errorHandler) = { b with handled := k :: b.handled } := by
    cases b; simp_all
  simp [captureMessageR, hv, hb, errorHandler.Lock, hl, hk, hnew, errorHandler.Unlock, hf, hb']

/-- A body all of whose captures pass errors the lookup finds changes nothing. -/
theorem runBody_seen (bodies : HandlerBodies) (fuel : Nat) (s : State) (ctx : Context)
    (a : Nat) (b : errorHandler) (k : ErrorKey) (body : List (error × String))
    (hr : Resolves s ctx a b) (hin : mapHas b.handled k = true)
    (hbody : ∀ c ∈ body, c.1.mapKey = .ok k) :
    runBody (captureMessageR bodies (fuel + 1)) s ctx body = some (.ok s) := by
  induction body with
  | nil => rfl
  | cons c rest ih =>
    obtain ⟨e, m⟩ := c
    have h1 := captureMessageR_seen bodies fuel s ctx e m a b k hr
      (hbody (e, m) (List.mem_cons_self _ _)) hin
    simp only [runBody, h1]
    exact ih (fun c hc => hbody c (List.mem_cons_of_mem _ hc))

/-- A handler that captures, first thing whenever it runs, an error holding a
NaN: the capture of that error under its binding needs more than any given
nesting depth, since every nested lookup misses and calls the handler again. -/
theorem captureMessageR_nan_loops (bodies : HandlerBodies) (ctx : Context) (a f : Nat)
    (typ value : Nat) (text m' : String) (rest : List (error × String))
    (hbody : bodies f = (error.nan typ value text, m') :: rest) (fuel : Nat) :
    ∀ (s : State) (b : errorHandler) (m : String), Resolves s ctx a b →
      b.handlerFunc = some f →
      captureMessageR bodies fuel s ctx (error.nan typ value text) m = none := by
  induction fuel with
  | zero => intro s b m _ _; rfl
  | succ fuel ih =>
    intro s b m hr hf
    rw [captureMessageR_new bodies fuel s ctx (error.nan typ value text) m a b
      (ErrorKey.nan typ value) f hr hf rfl (mapHas_nan _ _ _), hbody]
    have hr1 : Resolves
        (callHandler (s.store a { b with handled := ErrorKey.nan typ value :: b.handled }) f ctx
          (error.nan typ value text) m)
        ctx a { b with handled := ErrorKey.nan typ value :: b.handled } :=
      resolves_callHandler _ ctx ctx a _ f _ m (resolves_store s ctx a b _ hr hr.2.2)
    simp only [runBody, ih _ _ m' hr1 hf]

/-- C17, as amended.  Let a context carry a binding with user handler `f` (no
capture in progress), and let `f`, whenever it runs, capture again on the
context it was given the error it was called for (an error with the key of `e`,
any number of times, with any messages).  The capture of a hashable error `e`
that is equal to itself under `==` and not yet reported terminates for every
nesting bound of at least two: `e` is in the reported set when `f` starts and
the lookup finds it there, every capture made by `f` returns without a nested
call, and `f` has been called exactly once, with the arguments of the outer
capture. -/
theorem mark_before_dispatch (bodies : HandlerBodies) (s : State) (ctx : Context) (a : Nat)
    (b : errorHandler) (f : Nat) (e : error) (k : ErrorKey) (m : String) (fuel : Nat)
    (hr : Resolves s ctx a b) (hf : b.handlerFunc = some f)
    (hk : e.mapKey = .ok k) (hrefl : k.eq k = true) (hnew : mapHas b.handled k = false)
    (hbody : ∀ c ∈ bodies f, c.1.mapKey = .ok k) :
    k ∈ (callHandler (s.store a { b with handled := k :: b.handled }) f ctx e m).handledAt a
    ∧ mapHas
        ((callHandler (s.store a { b with handled := k :: b.handled }) f ctx e m).handledAt a)
        k = true
    ∧ captureMessageR bodies (fuel + 2) s ctx e m
        = runBody (captureMessageR bodies (fuel + 1))
            (callHandler (s.store a { b with handled := k :: b.handled }) f ctx e m) ctx
            (bodies f)
    ∧ ∃ s', captureMessageR bodies (fuel + 2) s ctx e m = some (.ok s')
        ∧ s'.calls = s.calls ++ [⟨f, ctx, e, m⟩] ∧ s'.log = s.log
        ∧ s'.handledAt a = k :: b.handled := by
  have hnew' := captureMessageR_new bodies (fuel + 1) s ctx e m a b k f hr hf hk hnew
  have hr1 : Resolves (callHandler (s.store a { b with handled := k :: b.handled }) f ctx e m)
      ctx a { b with handled := k :: b.handled } :=
    resolves_callHandler _ ctx ctx a _ f e m (resolves_store s ctx a b _ hr hr.2.2)
  have hbody' := runBody_seen bodies fuel _ ctx a _ k (bodies f) hr1
    (mapHas_self b.handled k hrefl) hbody
  refine ⟨?_, ?_, hnew', _, hnew'.trans hbody', ?_, ?_, ?_⟩
  · simp [State.handledAt, hr1.2.1]
  · simpa [State.handledAt, hr1.2.1] using mapHas_self b.handled k hrefl
  · simp [callHandler, State.store]
  · simp [callHandler, State.store]
  · simp [State.handledAt, hr1.2.1]

/-- C17 instantiated: handler 7 captures the error it was called for twice
more; the outer capture on a fresh binding ends with one call of the handler. -/
theorem mark_before_dispatch_witness :
    ∃ s', captureMessageR
        (fun _ => [(error.dyn 1 0 true "boom", "again"), (error.dyn 1 0 true "boom", "and again")])
        2 (NewContext State.init Context.background (some 7)).2
        (NewContext State.init Context.background (some 7)).1 (error.dyn 1 0 true "boom") "m"
        = some (.ok s')
      ∧ s'.calls = [⟨7, (NewContext State.init Context.background (some 7)).1,
          error.dyn 1 0 true "boom", "m"⟩] :=
  (mark_before_dispatch
    (fun _ => [(error.dyn 1 0 true "boom", "again"), (error.dyn 1 0 true "boom", "and again")])
    (NewContext State.init Context.background (some 7)).2
    (NewContext State.init Context.background (some 7)).1 0
    { lock := false, handlerFunc := some 7, handled := [] } 7
    (error.dyn 1 0 true "boom") (ErrorKey.dyn 1 0) "m" 0
    ⟨rfl, rfl, rfl⟩ rfl rfl (by decide) (by decide) (by simp [error.mapKey])).2.2.2.imp
    fun _ h => ⟨h.1, h.2.1⟩

/-- C17 as stated fails for a hashable error that holds a NaN.  On a fresh
binding whose handler captures again the error it was called for, the error is
in the reported set when the handler starts, yet the capture made by the
handler calls the handler again (the lookup does not find the error), and so
at every depth: no nesting bound lets the outer capture return. -/
theorem mark_before_dispatch_not_for_every_error :
    (∃ s1 s2, CaptureMessage (NewContext State.init Context.background (some 7)).2
          (NewContext State.init Context.background (some 7)).1 (error.nan 1 0 "NaN") "m"
        = .ok s1
      ∧ ErrorKey.nan 1 0 ∈ s1.handledAt 0
      ∧ CaptureMessage s1 (NewContext State.init Context.background (some 7)).1
          (error.nan 1 0 "NaN") "again" = .ok s2
      ∧ s2.calls = [⟨7, (NewContext State.init Context.background (some 7)).1,
            error.nan 1 0 "NaN", "m"⟩,
          ⟨7, (NewContext State.init Context.background (some 7)).1,
            error.nan 1 0 "NaN", "again"⟩])
    ∧ ¬ ∃ fuel s', captureMessageR (fun _ => [(error.nan 1 0 "NaN", "again")]) fuel
          (NewContext State.init Context.background (some 7)).2
          (NewContext State.init Context.background (some 7)).1 (error.nan 1 0 "NaN") "m"
        = some (.ok s') := by
  refine ⟨⟨_, _, rfl, by decide, rfl, rfl⟩, ?_⟩
  rintro ⟨fuel, s', h⟩
  rw [captureMessageR_nan_loops (fun _ => [(error.nan 1 0 "NaN", "again")])
    (NewContext State.init Context.background (some 7)).1 0 7 1 0 "NaN" "again" [] rfl fuel
    _ _ "m" (NewContext_resolves State.init Context.background (some 7)) rfl] at h
  cases h

/-! ## C15: the handler runs outside the lock -/

/-- A capture that finds the mutex of its binding held never returns. -/
theorem captureMessageR_locked (bodies : HandlerBodies) (fuel : Nat) (t : State) (ctx : Context)
    (e : error) (m : String) (a : Nat) (b : errorHandler)
    (hv : ctx.Value (CtxKey.lib errHandlerContextKey)
      = .ok (some (CtxValue.errorHandlerPtr a)))
    (hb : t.heap[a]? = some b) (hl : b.lock = true) :
    captureMessageR bodies (fuel + 1) t ctx e m = some (.error Failure.deadlock) := by
  simp [captureMessageR, hv, hb, errorHandler.Lock, hl]

/-- C15, as amended.  Let a context carry a binding with user handler `f` (no
capture in progress), and let `f`, whenever it runs, capture on the context it
was given a hashable error `e2` that is equal to itself under `==`.  For a
hashable error `e`, not `==` to `e2`, both not yet reported (the lookup finds
neither): the body of `f` starts in a state in which `e` is marked
and the mutex of the binding is free; the outer capture terminates for every
nesting bound of at least three; `f` has then been called once for `e` and once
for `e2`, and both are reported.  A nested capture that found the mutex held
would never return. -/
theorem handler_runs_outside_lock (bodies : HandlerBodies) (s : State) (ctx : Context)
    (a : Nat) (b : errorHandler) (f : Nat) (e e2 : error) (k k2 : ErrorKey) (m m2 : String)
    (fuel : Nat)
    (hr : Resolves s ctx a b) (hf : b.handlerFunc = some f)
    (hk : e.mapKey = .ok k) (hk2 : e2.mapKey = .ok k2) (hne : k.eq k2 = false)
    (hrefl2 : k2.eq k2 = true)
    (hnew : mapHas b.handled k = false) (hnew2 : mapHas b.handled k2 = false)
    (hbody : bodies f = [(e2, m2)]) :
    captureMessageR bodies (fuel + 3) s ctx e m
        = runBody (captureMessageR bodies (fuel + 2))
            (callHandler (s.store a { b with handled := k :: b.handled }) f ctx e m) ctx
            (bodies f)
    ∧ Resolves (callHandler (s.store a { b with handled := k :: b.handled }) f ctx e m) ctx a
        { b with handled := k :: b.handled }
    ∧ (∃ s', captureMessageR bodies (fuel + 3) s ctx e m = some (.ok s')
        ∧ s'.calls = s.calls ++ [⟨f, ctx, e, m⟩, ⟨f, ctx, e2, m2⟩] ∧ s'.log = s.log
        ∧ s'.handledAt a = k2 :: k :: b.handled)
    ∧ (∀ (t : State) (b' : errorHandler), t.heap[a]? = some b' → b'.lock = true →
        captureMessageR bodies (fuel + 1) t ctx e2 m2 = some (.error Failure.deadlock)) := by
  have houter := captureMessageR_new bodies (fuel + 2) s ctx e m a b k f hr hf hk hnew
  have hr1 : Resolves (callHandler (s.store a { b with handled := k :: b.handled }) f ctx e m)
      ctx a { b with handled := k :: b.handled } :=
    resolves_callHandler _ ctx ctx a _ f e m (resolves_store s ctx a b _ hr hr.2.2)
  have hnew2' : mapHas ({ b with handled := k :: b.handled } : errorHandler).handled k2
      = false := by
    simp [mapHas_cons, hne, hnew2]
  have hinner := captureMessageR_new bodies (fuel + 1) _ ctx e2 m2 a _ k2 f hr1 hf hk2 hnew2'
  have hr2 : Resolves
      (callHandler
        ((callHandler (s.store a { b with handled := k :: b.handled }) f ctx e m).store a
          { b with handled := k2 :: k :: b.handled }) f ctx e2 m2)
      ctx a { b with handled := k2 :: k :: b.handled } :=
    resolves_callHandler _ ctx ctx a _ f e2 m2 (resolves_store _ ctx a _ _ hr1 hr.2.2)
  have hinner_body := runBody_seen bodies fuel _ ctx a _ k2 (bodies f) hr2
    (mapHas_self (k :: b.handled) k2 hrefl2)
    (by rw [hbody]; intro c hc; simp at hc; rw [hc]; exact hk2)
  have hinner' := hinner.trans hinner_body
  have hfin : captureMessageR bodies (fuel + 3) s ctx e m = some (.ok
      (callHandler
        ((callHandler (s.store a { b with handled := k :: b.handled }) f ctx e m).store a
          { b with handled := k2 :: k :: b.handled }) f ctx e2 m2)) := by
    rw [houter, hbody]
    simp only [runBody]
    rw [hinner']
    rfl
  refine ⟨houter, hr1, ⟨_, hfin, ?_, ?_, ?_⟩, ?_⟩
  · simp [callHandler, State.store]
  · simp [callHandler, State.store]
  · simp [State.handledAt, hr2.2.1]
  · intro t b' hb' hl'
    exact captureMessageR_locked bodies fuel t ctx e2 m2 a b' hr.1 hb' hl'

/-- C15 instantiated: handler 7 captures a second error whenever it runs; the
capture of a first error on a fresh binding ends with one call for each. -/
theorem handler_runs_outside_lock_witness :
    ∃ s', captureMessageR (fun _ => [(error.dyn 2 0 true "cleanup failed", "while handling")])
        3 (NewContext State.init Context.background (some 7)).2
        (NewContext State.init Context.background (some 7)).1 (error.dyn 1 0 true "boom") "m"
        = some (.ok s')
      ∧ s'.calls = [⟨7, (NewContext State.init Context.background (some 7)).1,
            error.dyn 1 0 true "boom", "m"⟩,
          ⟨7, (NewContext State.init Context.background (some 7)).1,
            error.dyn 2 0 true "cleanup failed", "while handling"⟩] :=
  (handler_runs_outside_lock
    (fun _ => [(error.dyn 2 0 true "cleanup failed", "while handling")])
    (NewContext State.init Context.background (some 7)).2
    (NewContext State.init Context.background (some 7)).1 0
    { lock := false, handlerFunc := some 7, handled := [] } 7
    (error.dyn 1 0 true "boom") (error.dyn 2 0 true "cleanup failed")
    (ErrorKey.dyn 1 0) (ErrorKey.dyn 2 0) "m" "while handling" 0
    ⟨rfl, rfl, rfl⟩ rfl rfl rfl (by decide) (by decide) (by decide) (by decide)
    rfl).2.2.1.imp
    fun _ h => ⟨h.1, h.2.1⟩

/-- C15 as stated fails.  When the different error the handler captures has an
unhashable dynamic value, the nested capture panics at the map lookup, so the
handler does not complete and that error is not reported.  When it is hashable
but holds a NaN, the nested capture calls the handler, whose capture of that
error is not found by the lookup and calls the handler again, and so at every
depth: no nesting bound lets the outer capture return. -/
theorem handler_reentry_not_for_every_error :
    captureMessageR (fun _ => [(error.dyn 2 0 false "cleanup failed", "while handling")])
        3 (NewContext State.init Context.background (some 7)).2
        (NewContext State.init Context.background (some 7)).1 (error.dyn 1 0 true "boom") "m"
      = some (.error Failure.unhashableKey)
    ∧ ¬ ∃ fuel s', captureMessageR (fun _ => [(error.nan 2 0 "NaN", "while handling")]) fuel
          (NewContext State.init Context.background (some 7)).2
          (NewContext State.init Context.background (some 7)).1 (error.dyn 1 0 true "boom") "m"
        = some (.ok s') := by
  refine ⟨rfl, ?_⟩
  rintro ⟨fuel, s', h⟩
  cases fuel with
  | zero => cases h
  | succ fuel =>
    rw [captureMessageR_new (fun _ => [(error.nan 2 0 "NaN", "while handling")]) fuel
      (NewContext State.init Context.background (some 7)).2
      (NewContext State.init Context.background (some 7)).1 (error.dyn 1 0 true "boom") "m" 0
      { lock := false, handlerFunc := some 7, handled := [] } (ErrorKey.dyn 1 0) 7
      (NewContext_resolves State.init Context.background (some 7)) rfl rfl rfl] at h
    have hr1 : Resolves
        (callHandler ((NewContext State.init Context.background (some 7)).2.store 0
          { lock := false, handlerFunc := some 7, handled := [ErrorKey.dyn 1 0] }) 7
          (NewContext State.init Context.background (some 7)).1 (error.dyn 1 0 true "boom") "m")
        (NewContext State.init Context.background (some 7)).1 0
        { lock := false, handlerFunc := some 7, handled := [ErrorKey.dyn 1 0] } :=
      ⟨rfl, rfl, rfl⟩
    simp only [runBody, captureMessageR_nan_loops
      (fun _ => [(error.nan 2 0 "NaN", "while handling")])
      (NewContext State.init Context.background (some 7)).1 0 7 2 0 "NaN" "while handling" []
      rfl fuel _ _ "while handling" hr1 rfl] at h
    cases h

/-! ## C14: concurrent callers -/

theorem cnt_set (n : Nat) (T : List Goroutine) (i : Nat) (g g' : Goroutine)
    (hi : T[i]? = some g) :
    cnt n (T.set i g') + (if g.cls = n then 1 else 0)
      = cnt n T + (if g'.cls = n then 1 else 0) := by
  induction T generalizing i with
  | nil => simp at hi
  | cons x xs ih =>
    cases i with
    | zero =>
      simp only [List.getElem?_cons_zero, Option.some.injEq] at hi
      subst hi
      simp only [cnt, List.set_cons_zero, List.countP_cons, decide_eq_true_eq]
      omega
    | succ j =>
      simp only [List.getElem?_cons_succ] at hi
      have := ih j hi
      simp only [cnt, List.set_cons_succ, List.countP_cons, decide_eq_true_eq] at this ⊢
      omega

theorem cnt_pos (n : Nat) (T : List Goroutine) (i : Nat) (g : Goroutine)
    (hi : T[i]? = some g) (hc : g.cls = n) : 1 ≤ cnt n T := by
  have hmem : g ∈ T := List.getElem?_mem hi
  exact List.countP_pos_iff.mpr ⟨g, hmem, by simp [hc]⟩

theorem cnt_replicate_start (n K : Nat) (ctx : Context) (e : error) :
    cnt n (List.replicate K (Goroutine.start ctx e)) = if n = 0 then K else 0 := by
  induction K with
  | zero => simp [cnt]
  | succ K ih =>
    simp only [cnt, List.replicate_succ, List.countP_cons] at ih ⊢
    rw [ih]
    by_cases hn : n = 0
    · subst hn
      simp [Goroutine.start, Goroutine.cls]
    · have : ¬ (0 = n) := fun h => hn h.symm
      simp [Goroutine.start, Goroutine.cls, hn, this]

theorem RaceInv_spawn (s : State) (ctx : Context) (a : Nat) (b : errorHandler) (f : Nat)
    (e : error) (text : String) (k : ErrorKey) (K : Nat)
    (hr : Resolves s ctx a b) (hf : b.handlerFunc = some f) :
    RaceInv s ctx a b f e text k K (Config.spawn s ctx e K) := by
  refine ⟨?_, ?_, ?_, ?_, ?_, ?_, ?_, ?_⟩
  · intro g hg
    simp only [Config.spawn] at hg
    have := List.eq_of_mem_replicate hg
    subst this
    simp [Goroutine.start]
  · simp [Config.spawn, cnt_replicate_start]
  · simp [Config.spawn, cnt_replicate_start]
  · refine ⟨b, hr.2.1, hf, ?_, ?_, ?_, ?_⟩
    · intro hl
      rw [hr.2.2] at hl
      cases hl
    · intro _
      simp [Config.spawn, cnt_replicate_start]
    · intro _
      rfl
    · intro h
      simp [Config.spawn, cnt_replicate_start] at h
  · simp [Config.spawn, cnt_replicate_start]
  · intro h
    simp [Config.spawn, cnt_replicate_start] at h
  · simp [Config.spawn, cnt_replicate_start]
  · rfl
theorem RaceInv_step (s : State) (ctx : Context) (a : Nat) (b : errorHandler) (f : Nat)
    (e : error) (text : String) (k : ErrorKey) (K : Nat)
    (hv : ctx.Value (CtxKey.lib errHandlerContextKey)
      = .ok (some (CtxValue.errorHandlerPtr a)))
    (hk : e.mapKey = .ok k) (ht : e.Error = .ok text) (hrefl : k.eq k = true)
    (hnew : mapHas b.handled k = false)
    (c c' : Config) (i : Nat)
    (hinv : RaceInv s ctx a b f e text k K c) (hstep : c.step i = some c') :
    RaceInv s ctx a b f e text k K c'
      ∧ stepsMade c'.goroutines = stepsMade c.goroutines + 1 := by
  obtain ⟨st, T⟩ := c
  simp only [Config.step] at hstep
  split at hstep
  · cases hstep
  · cases hg : T[i]? with
    | none => simp [hg] at hstep
    | some g =>
      cases hgs : g.step st with
      | none => simp [hg, hgs] at hstep
      | some r =>
        obtain ⟨s', g'⟩ := r
        simp only [hg, hgs, Option.some.injEq] at hstep
        subst hstep
        obtain ⟨heach, htotal, hnocrash, ⟨h, hh, hhf, hlT, hlF, hsame, hins⟩, hwin, hlos, hcalls, hlog⟩ := hinv
        simp only at heach htotal hnocrash hh hlT hlF hsame hins hwin hlos hcalls hlog
        have hmem : g ∈ T := List.getElem?_mem hg
        obtain ⟨hgctx, hgerr, hgloc⟩ := heach g hmem
        have hc : ∀ n, cnt n (T.set i g') + (if g.cls = n then 1 else 0)
            = cnt n T + (if g'.cls = n then 1 else 0) := fun n => cnt_set n T i g g' hg
        have hpos : 1 ≤ cnt g.cls T := cnt_pos g.cls T i g hg rfl
        have h0 := hc 0
        have h1 := hc 1
        have h2 := hc 2
        have h3 := hc 3
        have h4 := hc 4
        have h5 := hc 5
        have h6 := hc 6
        have h7 := hc 7
        have h8 := hc 8
        have h9 := hc 9
        have h10 := hc 10
        have h11 := hc 11
        have heach' : ∀ g'' : Goroutine, (g''.ctx = ctx ∧ g''.err = e
            ∧ (g''.pc ≠ Pc.entry → g''.msg = text ∧ g''.errHandler = a)) → g'' = g' →
            ∀ x ∈ T.set i g', x.ctx = ctx ∧ x.err = e
              ∧ (x.pc ≠ Pc.entry → x.msg = text ∧ x.errHandler = a) := by
          intro g'' hg'' heq x hx
          rcases List.mem_or_eq_of_mem_set hx with hx1 | hx1
          · exact heach x hx1
          · rw [hx1, ← heq]; exact hg''
        obtain ⟨gctx, gerr, gpc, gmsg, ga, ghd⟩ := g
        simp only at hgctx hgerr hgloc
        subst hgctx hgerr
        cases gpc with
        | entry =>
          simp only [Goroutine.step, ht, hv, hh] at hgs
          simp only [Option.some.injEq, Prod.mk.injEq] at hgs
          obtain ⟨hs', hg'⟩ := hgs
          subst hs' hg'
          simp [Goroutine.cls] at h0 h1 h2 h3 h4 h5 h6 h7 h8 h9 h10 h11 hpos
          refine ⟨⟨?_, ?_, ?_, ⟨h, hh, hhf, ?_, ?_, ?_, ?_⟩, ?_, ?_, ?_, ?_⟩, ?_⟩
          · exact heach' _ ⟨rfl, rfl, fun _ => ⟨rfl, rfl⟩⟩ rfl
          · simp only; omega
          · simp only; omega
          · intro hl; have := hlT hl; simp only; omega
          · intro hl; have := hlF hl; simp only; omega
          · intro hz; simp only at hz; exact hsame (by omega)
          · intro hz; simp only at hz; exact hins (by omega)
          · simp only; omega
          · intro hz; simp only at hz ⊢; have := hlos (by omega); omega
          · simp only; rw [hcalls]; congr 2; omega
          · exact hlog
          · simp only [stepsMade]; omega
        | lock =>
          obtain ⟨hgmsg, hga⟩ := hgloc (by simp)
          subst hgmsg hga
          cases hl : h.lock with
          | true => simp [Goroutine.step, hh, errorHandler.Lock, hl] at hgs
          | false =>
            simp only [Goroutine.step, hh, errorHandler.Lock, hl, Bool.false_eq_true, if_false,
              Option.some.injEq, Prod.mk.injEq] at hgs
            obtain ⟨hs', hg'⟩ := hgs
            subst hs' hg'
            have hsum := hlF hl
            simp [Goroutine.cls] at h0 h1 h2 h3 h4 h5 h6 h7 h8 h9 h10 h11 hpos
            refine ⟨⟨?_, ?_, ?_, ⟨{ h with lock := true }, store_getElem? st ga h _ hh, hhf,
              ?_, ?_, ?_, ?_⟩, ?_, ?_, ?_, ?_⟩, ?_⟩
            · exact heach' _ ⟨rfl, rfl, fun _ => ⟨rfl, rfl⟩⟩ rfl
            · simp only; omega
            · simp only; omega
            · intro _; simp only; omega
            · intro hl'; simp at hl'
            · intro hz; simp only at hz; exact hsame (by omega)
            · intro hz; simp only at hz; exact hins (by omega)
            · simp only; omega
            · intro hz; simp only at hz ⊢; have := hlos (by omega); omega
            · simp only [State.store]; rw [hcalls]; congr 2; omega
            · exact hlog
            · simp only [stepsMade]; omega
        | lookup =>
          obtain ⟨hgmsg, hga⟩ := hgloc (by simp)
          subst hgmsg hga
          have hlock : h.lock = true := by
            cases hl : h.lock with
            | true => rfl
            | false =>
              have := hlF hl
              simp [Goroutine.cls] at hpos
              omega
          have hsum := hlT hlock
          by_cases hz : 1 ≤ cnt 5 T + cnt 7 T + cnt 9 T
          · have hdec : mapHas h.handled k = true := by
              rw [hins hz]; exact mapHas_self _ _ hrefl
            simp only [Goroutine.step, hh, hk, hdec] at hgs
            simp only [Option.some.injEq, Prod.mk.injEq] at hgs
            obtain ⟨hs', hg'⟩ := hgs
            subst hs' hg'
            simp [Goroutine.cls] at h0 h1 h2 h3 h4 h5 h6 h7 h8 h9 h10 h11 hpos
            refine ⟨⟨?_, ?_, ?_, ⟨h, hh, hhf, ?_, ?_, ?_, ?_⟩, ?_, ?_, ?_, ?_⟩, ?_⟩
            · exact heach' _ ⟨rfl, rfl, fun _ => ⟨rfl, rfl⟩⟩ rfl
            · simp only; omega
            · simp only; omega
            · intro _; simp only; omega
            · intro hl'; rw [hlock] at hl'; cases hl'
            · intro hz'; simp only at hz'; exact hsame (by omega)
            · intro hz'; simp only at hz'; exact hins (by omega)
            · simp only; omega
            · intro _; simp only; omega
            · simp only; rw [hcalls]; congr 2; omega
            · exact hlog
            · simp only [stepsMade]; omega
          · have hz0 : cnt 5 T + cnt 7 T + cnt 9 T = 0 := by omega
            have hdec : mapHas h.handled k = false := by rw [hsame hz0]; exact hnew
            simp only [Goroutine.step, hh, hk, hdec] at hgs
            simp only [Option.some.injEq, Prod.mk.injEq] at hgs
            obtain ⟨hs', hg'⟩ := hgs
            subst hs' hg'
            simp [Goroutine.cls] at h0 h1 h2 h3 h4 h5 h6 h7 h8 h9 h10 h11 hpos
            refine ⟨⟨?_, ?_, ?_, ⟨h, hh, hhf, ?_, ?_, ?_, ?_⟩, ?_, ?_, ?_, ?_⟩, ?_⟩
            · exact heach' _ ⟨rfl, rfl, fun _ => ⟨rfl, rfl⟩⟩ rfl
            · simp only; omega
            · simp only; omega
            · intro _; simp only; omega
            · intro hl'; rw [hlock] at hl'; cases hl'
            · intro hz'; simp only at hz'; exact hsame (by omega)
            · intro hz'; simp only at hz'; exact hins (by omega)
            · simp only; omega
            · intro hz'; simp only at hz' ⊢; have := hlos (by omega); omega
            · simp only; rw [hcalls]; congr 2; omega
            · exact hlog
            · simp only [stepsMade]; omega
        | insert =>
          obtain ⟨hgmsg, hga⟩ := hgloc (by simp)
          subst hgmsg hga
          simp only [Goroutine.step, hh, hk] at hgs
          simp only [Option.some.injEq, Prod.mk.injEq] at hgs
          obtain ⟨hs', hg'⟩ := hgs
          subst hs' hg'
          have hlock : h.lock = true := by
            cases hl : h.lock with
            | true => rfl
            | false =>
              have := hlF hl
              cases ghd <;> simp [Goroutine.cls] at hpos <;> omega
          have hsum := hlT hlock
          cases ghd with
          | false =>
            simp [Goroutine.cls] at h0 h1 h2 h3 h4 h5 h6 h7 h8 h9 h10 h11 hpos
            have hz0 : cnt 5 T + cnt 7 T + cnt 9 T = 0 := by omega
            have hold := hsame hz0
            refine ⟨⟨?_, ?_, ?_, ⟨{ h with handled := k :: h.handled }, ?_, hhf,
              ?_, ?_, ?_, ?_⟩, ?_, ?_, ?_, ?_⟩, ?_⟩
            · exact heach' _ ⟨rfl, rfl, fun _ => ⟨rfl, rfl⟩⟩ rfl
            · simp only; omega
            · simp only; omega
            · simpa using store_getElem? st ga h _ hh
            · intro _; simp only; omega
            · intro hl'; simp only at hl'; rw [hlock] at hl'; cases hl'
            · intro hz'; simp only at hz'; omega
            · intro _; simp only; rw [hold]
            · simp only; omega
            · intro _; simp only; omega
            · simp [State.store]; rw [hcalls]; congr 2; omega
            · simpa [State.store] using hlog
            · simp only [stepsMade]; omega
          | true =>
            simp [Goroutine.cls] at h0 h1 h2 h3 h4 h5 h6 h7 h8 h9 h10 h11 hpos
            refine ⟨⟨?_, ?_, ?_, ⟨h, by simpa using hh, hhf, ?_, ?_, ?_, ?_⟩, ?_, ?_, ?_, ?_⟩, ?_⟩
            · exact heach' _ ⟨rfl, rfl, fun _ => ⟨rfl, rfl⟩⟩ rfl
            · simp only; omega
            · simp only; omega
            · intro _; simp only; omega
            · intro hl'; rw [hlock] at hl'; cases hl'
            · intro hz'; simp only at hz'; exact hsame (by omega)
            · intro hz'; simp only at hz'; exact hins (by omega)
            · simp only; omega
            · intro _; simp only; have := hlos (by omega); omega
            · simp; rw [hcalls]; congr 2; omega
            · simpa using hlog
            · simp only [stepsMade]; omega
        | unlock =>
          obtain ⟨hgmsg, hga⟩ := hgloc (by simp)
          subst hgmsg hga
          simp only [Goroutine.step, hh] at hgs
          simp only [Option.some.injEq, Prod.mk.injEq] at hgs
          obtain ⟨hs', hg'⟩ := hgs
          subst hs' hg'
          have hlock : h.lock = true := by
            cases hl : h.lock with
            | true => rfl
            | false =>
              have := hlF hl
              cases ghd <;> simp [Goroutine.cls] at hpos <;> omega
          have hsum := hlT hlock
          cases ghd with
          | false =>
            simp [Goroutine.cls] at h0 h1 h2 h3 h4 h5 h6 h7 h8 h9 h10 h11 hpos
            refine ⟨⟨?_, ?_, ?_, ⟨h.Unlock, store_getElem? st ga h _ hh, hhf,
              ?_, ?_, ?_, ?_⟩, ?_, ?_, ?_, ?_⟩, ?_⟩
            · exact heach' _ ⟨rfl, rfl, fun _ => ⟨rfl, rfl⟩⟩ rfl
            · simp only; omega
            · simp only; omega
            · intro hl'; simp [errorHandler.Unlock] at hl'
            · intro _; simp only; omega
            · intro hz'; simp only at hz'; omega
            · intro _; simp only [errorHandler.Unlock]; exact hins (by omega)
            · simp only; omega
            · intro _; simp only; omega
            · simp only [State.store]; rw [hcalls]; congr 2; omega
            · exact hlog
            · simp only [stepsMade]; omega
          | true =>
            simp [Goroutine.cls] at h0 h1 h2 h3 h4 h5 h6 h7 h8 h9 h10 h11 hpos
            refine ⟨⟨?_, ?_, ?_, ⟨h.Unlock, store_getElem? st ga h _ hh, hhf,
              ?_, ?_, ?_, ?_⟩, ?_, ?_, ?_, ?_⟩, ?_⟩
            · exact heach' _ ⟨rfl, rfl, fun _ => ⟨rfl, rfl⟩⟩ rfl
            · simp only; omega
            · simp only; omega
            · intro hl'; simp [errorHandler.Unlock] at hl'
            · intro _; simp only; omega
            · intro hz'; simp only at hz'; simp only [errorHandler.Unlock]; exact hsame (by omega)
            · intro hz'; simp only at hz'; simp only [errorHandler.Unlock]; exact hins (by omega)
            · simp only; omega
            · intro _; simp only; have := hlos (by omega); omega
            · simp only [State.store]; rw [hcalls]; congr 2; omega
            · exact hlog
            · simp only [stepsMade]; omega
        | dispatch =>
          obtain ⟨hgmsg, hga⟩ := hgloc (by simp)
          subst hgmsg hga
          cases ghd with
          | false =>
            simp only [Goroutine.step, hh, hhf] at hgs
            simp only [Bool.not_false, if_true, Option.some.injEq, Prod.mk.injEq] at hgs
            obtain ⟨hs', hg'⟩ := hgs
            subst hs' hg'
            simp [Goroutine.cls] at h0 h1 h2 h3 h4 h5 h6 h7 h8 h9 h10 h11 hpos
            refine ⟨⟨?_, ?_, ?_, ⟨h, hh, hhf, ?_, ?_, ?_, ?_⟩, ?_, ?_, ?_, ?_⟩, ?_⟩
            · exact heach' _ ⟨rfl, rfl, fun _ => ⟨rfl, rfl⟩⟩ rfl
            · simp only; omega
            · simp only; omega
            · intro hl; have := hlT hl; simp only; omega
            · intro hl; have := hlF hl; simp only; omega
            · intro hz'; simp only at hz'; omega
            · intro _; exact hins (by omega)
            · simp only; omega
            · intro _; simp only; omega
            · simp only [callHandler]
              rw [hcalls]
              rw [h9, List.replicate_succ', List.append_assoc]
            · exact hlog
            · simp only [stepsMade]; omega
          | true =>
            simp only [Goroutine.step] at hgs
            simp only [Bool.not_true, Bool.false_eq_true, if_false, Option.some.injEq,
              Prod.mk.injEq] at hgs
            obtain ⟨hs', hg'⟩ := hgs
            subst hs' hg'
            simp [Goroutine.cls] at h0 h1 h2 h3 h4 h5 h6 h7 h8 h9 h10 h11 hpos
            refine ⟨⟨?_, ?_, ?_, ⟨h, hh, hhf, ?_, ?_, ?_, ?_⟩, ?_, ?_, ?_, ?_⟩, ?_⟩
            · exact heach' _ ⟨rfl, rfl, fun _ => ⟨rfl, rfl⟩⟩ rfl
            · simp only; omega
            · simp only; omega
            · intro hl; have := hlT hl; simp only; omega
            · intro hl; have := hlF hl; simp only; omega
            · intro hz'; simp only at hz'; exact hsame (by omega)
            · intro hz'; simp only at hz'; exact hins (by omega)
            · simp only; omega
            · intro _; simp only; have := hlos (by omega); omega
            · simp only; rw [hcalls]; congr 2; omega
            · exact hlog
            · simp only [stepsMade]; omega
        | done => simp [Goroutine.step] at hgs
        | crashed => simp [Goroutine.step] at hgs
theorem RaceInv_exec (s : State) (ctx : Context) (a : Nat) (b : errorHandler) (f : Nat)
    (e : error) (text : String) (k : ErrorKey) (K : Nat)
    (hv : ctx.Value (CtxKey.lib errHandlerContextKey)
      = .ok (some (CtxValue.errorHandlerPtr a)))
    (hk : e.mapKey = .ok k) (ht : e.Error = .ok text) (hrefl : k.eq k = true)
    (hnew : mapHas b.handled k = false)
    (sch : List Nat) (c c' : Config)
    (hinv : RaceInv s ctx a b f e text k K c) (hexec : c.exec sch = some c') :
    RaceInv s ctx a b f e text k K c'
      ∧ stepsMade c'.goroutines = stepsMade c.goroutines + sch.length := by
  induction sch generalizing c with
  | nil =>
    simp only [Config.exec, Option.some.injEq] at hexec
    subst hexec
    exact ⟨hinv, rfl⟩
  | cons i sch ih =>
    cases h1 : c.step i with
    | none => simp [Config.exec, h1] at hexec
    | some c1 =>
      simp only [Config.exec, h1] at hexec
      obtain ⟨hinv1, hsteps1⟩ := RaceInv_step s ctx a b f e text k K hv hk ht hrefl hnew c c1 i hinv h1
      obtain ⟨hinv', hsteps'⟩ := ih c1 hinv1 hexec
      refine ⟨hinv', ?_⟩
      rw [hsteps', hsteps1, List.length_cons]
      omega

theorem RaceInv_no_crash (s : State) (ctx : Context) (a : Nat) (b : errorHandler) (f : Nat)
    (e : error) (text : String) (k : ErrorKey) (K : Nat) (c : Config)
    (hinv : RaceInv s ctx a b f e text k K c) :
    c.goroutines.any (fun g => decide (g.pc = Pc.crashed)) = false := by
  rw [List.any_eq_false]
  intro g hg
  simp only [decide_eq_true_eq]
  intro hpc
  have hpos : 1 ≤ cnt 11 c.goroutines :=
    List.countP_pos_iff.mpr ⟨g, hg, by simp [Goroutine.cls, hpc]⟩
  have := hinv.nocrash
  omega

/-- In a race every goroutine that has not returned can move, unless it waits
for the mutex while another holds it. -/
theorem RaceInv_enabled (s : State) (ctx : Context) (a : Nat) (b : errorHandler) (f : Nat)
    (e : error) (text : String) (k : ErrorKey) (K : Nat)
    (hv : ctx.Value (CtxKey.lib errHandlerContextKey)
      = .ok (some (CtxValue.errorHandlerPtr a)))
    (hk : e.mapKey = .ok k) (ht : e.Error = .ok text)
    (c : Config) (hinv : RaceInv s ctx a b f e text k K c) (i : Nat) (g : Goroutine)
    (hg : c.goroutines[i]? = some g) (hnd : g.pc ≠ Pc.done)
    (hw : g.pc = Pc.lock → ∀ h, c.state.heap[a]? = some h → h.lock = false) :
    (c.step i).isSome = true := by
  have hany := RaceInv_no_crash s ctx a b f e text k K c hinv
  obtain ⟨h, hh, hhf, -⟩ := hinv.heap
  obtain ⟨hgctx, hgerr, hgloc⟩ := hinv.each g (List.getElem?_mem hg)
  have hnc : g.pc ≠ Pc.crashed := by
    intro hpc
    have hpos : 1 ≤ cnt 11 c.goroutines :=
      List.countP_pos_iff.mpr ⟨g, List.getElem?_mem hg, by simp [Goroutine.cls, hpc]⟩
    have := hinv.nocrash
    omega
  have hgs : (g.step c.state).isSome = true := by
    obtain ⟨gctx, gerr, gpc, gmsg, ga, ghd⟩ := g
    simp only at hgctx hgerr hgloc hnd hnc hw
    subst hgctx hgerr
    cases gpc with
    | entry => simp [Goroutine.step, ht, hv, hh]
    | lock =>
      obtain ⟨_, hga⟩ := hgloc (by simp)
      subst hga
      simp [Goroutine.step, hh, errorHandler.Lock, hw rfl h hh]
    | lookup =>
      obtain ⟨_, hga⟩ := hgloc (by simp)
      subst hga
      simp [Goroutine.step, hh, hk]
    | insert =>
      obtain ⟨_, hga⟩ := hgloc (by simp)
      subst hga
      simp [Goroutine.step, hh, hk]
    | unlock =>
      obtain ⟨_, hga⟩ := hgloc (by simp)
      subst hga
      simp [Goroutine.step, hh]
    | dispatch =>
      obtain ⟨_, hga⟩ := hgloc (by simp)
      subst hga
      cases ghd <;> simp [Goroutine.step, hh, hhf]
    | done => exact absurd rfl hnd
    | crashed => exact absurd rfl hnc
  cases hst : g.step c.state with
  | none => rw [hst] at hgs; cases hgs
  | some r => simp [Config.step, hany, hg, hst]

/-- In a race some goroutine can move as long as one has not returned. -/
theorem RaceInv_progress (s : State) (ctx : Context) (a : Nat) (b : errorHandler) (f : Nat)
    (e : error) (text : String) (k : ErrorKey) (K : Nat)
    (hv : ctx.Value (CtxKey.lib errHandlerContextKey)
      = .ok (some (CtxValue.errorHandlerPtr a)))
    (hk : e.mapKey = .ok k) (ht : e.Error = .ok text)
    (c : Config) (hinv : RaceInv s ctx a b f e text k K c)
    (hnd : ∃ g ∈ c.goroutines, g.pc ≠ Pc.done) :
    ∃ i, (c.step i).isSome = true := by
  obtain ⟨g, hg, hgnd⟩ := hnd
  obtain ⟨i, hi⟩ := List.mem_iff_getElem?.mp hg
  obtain ⟨h, hh, hhf, hlT, -⟩ := hinv.heap
  by_cases hw : g.pc = Pc.lock ∧ h.lock = true
  · -- the mutex is held: its holder can move
    have hsum := hlT hw.2
    have hex : ∃ g2 ∈ c.goroutines, g2.pc = Pc.lookup ∨ g2.pc = Pc.insert ∨ g2.pc = Pc.unlock := by
      by_contra hcon
      have hnone : ∀ n, (n = 2 ∨ n = 3 ∨ n = 4 ∨ n = 5 ∨ n = 6) → cnt n c.goroutines = 0 := by
        intro n hn
        apply List.countP_eq_zero.mpr
        intro g2 hg2
        simp only [decide_eq_true_eq]
        intro hcls
        apply hcon
        refine ⟨g2, hg2, ?_⟩
        obtain ⟨gctx, gerr, gpc, gmsg, ga, ghd⟩ := g2
        cases gpc <;> cases ghd <;> simp [Goroutine.cls] at hcls ⊢ <;> omega
      have h2 := hnone 2 (by simp)
      have h3 := hnone 3 (by simp)
      have h4 := hnone 4 (by simp)
      have h5 := hnone 5 (by simp)
      have h6 := hnone 6 (by simp)
      omega
    obtain ⟨g2, hg2, hpc2⟩ := hex
    obtain ⟨j, hj⟩ := List.mem_iff_getElem?.mp hg2
    refine ⟨j, RaceInv_enabled s ctx a b f e text k K hv hk ht c hinv j g2 hj ?_ ?_⟩
    · rcases hpc2 with h' | h' | h' <;> rw [h'] <;> simp
    · intro hl
      rcases hpc2 with h' | h' | h' <;> rw [h'] at hl <;> cases hl
  · refine ⟨i, RaceInv_enabled s ctx a b f e text k K hv hk ht c hinv i g hi hgnd ?_⟩
    intro hl h' hh'
    rw [hh] at hh'
    cases hh'
    cases hlk : h.lock with
    | false => rfl
    | true => exact absurd ⟨hl, hlk⟩ hw
theorem cnt_cons (n : Nat) (g : Goroutine) (T : List Goroutine) :
    cnt n (g :: T) = cnt n T + (if g.cls = n then 1 else 0) := by
  simp [cnt, List.countP_cons]

theorem cnt_sum (T : List Goroutine) :
    cnt 0 T + cnt 1 T + cnt 2 T + cnt 3 T + cnt 4 T + cnt 5 T + cnt 6 T + cnt 7 T + cnt 8 T
      + cnt 9 T + cnt 10 T + cnt 11 T = T.length := by
  induction T with
  | nil => simp [cnt]
  | cons g T ih =>
    simp only [cnt_cons, List.length_cons]
    obtain ⟨gctx, gerr, gpc, gmsg, ga, ghd⟩ := g
    cases gpc <;> cases ghd <;> simp [Goroutine.cls] <;> omega

theorem cnt_zero_of_done (T : List Goroutine) (hd : ∀ g ∈ T, g.pc = Pc.done) (n : Nat)
    (hn : n ≠ 9 ∧ n ≠ 10) : cnt n T = 0 := by
  apply List.countP_eq_zero.mpr
  intro g hg
  have hpc := hd g hg
  obtain ⟨gctx, gerr, gpc, gmsg, ga, ghd⟩ := g
  simp only at hpc
  subst hpc
  cases ghd <;> simp [Goroutine.cls] <;> omega

theorem countP_handled_of_done (T : List Goroutine) (hd : ∀ g ∈ T, g.pc = Pc.done) :
    T.countP (fun g => !g.handled) = cnt 9 T ∧ T.countP (fun g => g.handled) = cnt 10 T := by
  constructor
  · apply List.countP_congr
    intro g hg
    have hpc := hd g hg
    obtain ⟨gctx, gerr, gpc, gmsg, ga, ghd⟩ := g
    simp only at hpc
    subst hpc
    cases ghd <;> simp [Goroutine.cls]
  · apply List.countP_congr
    intro g hg
    have hpc := hd g hg
    obtain ⟨gctx, gerr, gpc, gmsg, ga, ghd⟩ := g
    simp only at hpc
    subst hpc
    cases ghd <;> simp [Goroutine.cls]

/-- C14, as amended.  Let a context carry a binding with user handler `f` (no
capture in progress) and let `K >= 1` goroutines call `Capture(ctx, e)`
concurrently with one and the same error `e` that is non-nil, hashable, equal
to itself under `==` and not yet reported.  For every interleaving of their
steps, at every moment: the handler has been called not at all or exactly once,
with the context, the error and the error's text; the interleaving has at most
`6 * K` steps; as long as a caller has not returned, some goroutine can move (no
deadlock); and once all callers have returned, after exactly `6 * K` steps, the
handler has been called exactly once, exactly one caller has observed the error
as newly inserted and the `K - 1` others have observed it as already handled. -/
theorem concurrent_capture_once (s : State) (ctx : Context) (a : Nat) (b : errorHandler)
    (f : Nat) (e : error) (text : String) (k : ErrorKey) (K : Nat) (sch : List Nat) (c : Config)
    (hr : Resolves s ctx a b) (hf : b.handlerFunc = some f)
    (ht : e.Error = .ok text) (hk : e.mapKey = .ok k) (hrefl : k.eq k = true)
    (hnew : mapHas b.handled k = false) (hK : 0 < K)
    (hexec : (Config.spawn s ctx e K).exec sch = some c) :
    (c.state.calls = s.calls
      ∨ c.state.calls = s.calls ++ [⟨f, ctx, e, text⟩])
    ∧ sch.length ≤ 6 * K
    ∧ ((∃ g ∈ c.goroutines, g.pc ≠ Pc.done) → ∃ i, (c.step i).isSome = true)
    ∧ ((∀ g ∈ c.goroutines, g.pc = Pc.done) →
        c.state.calls = s.calls ++ [⟨f, ctx, e, text⟩]
        ∧ c.state.log = s.log
        ∧ c.goroutines.length = K
        ∧ c.goroutines.countP (fun g => !g.handled) = 1
        ∧ c.goroutines.countP (fun g => g.handled) = K - 1
        ∧ sch.length = 6 * K) := by
  have hinv0 := RaceInv_spawn s ctx a b f e text k K hr hf
  obtain ⟨hinv, hsteps⟩ := RaceInv_exec s ctx a b f e text k K hr.1 hk ht hrefl hnew sch _ c
    hinv0 hexec
  have hsteps0 : stepsMade (Config.spawn s ctx e K).goroutines = 0 := by
    simp [stepsMade, Config.spawn, cnt_replicate_start]
  rw [hsteps0, Nat.zero_add] at hsteps
  have htotal := hinv.total
  have hwin := hinv.winner
  have hlos := hinv.losers
  have hcalls := hinv.calls
  refine ⟨?_, ?_, ?_, ?_⟩
  · have h9 : cnt 9 c.goroutines = 0 ∨ cnt 9 c.goroutines = 1 := by omega
    rcases h9 with h9 | h9
    · left; rw [hcalls, h9]; simp
    · right; rw [hcalls, h9]; rfl
  · rw [← hsteps]
    simp only [stepsMade]
    omega
  · exact RaceInv_progress s ctx a b f e text k K hr.1 hk ht c hinv
  · intro hd
    have z0 := cnt_zero_of_done c.goroutines hd 0 (by simp)
    have z1 := cnt_zero_of_done c.goroutines hd 1 (by simp)
    have z2 := cnt_zero_of_done c.goroutines hd 2 (by simp)
    have z3 := cnt_zero_of_done c.goroutines hd 3 (by simp)
    have z4 := cnt_zero_of_done c.goroutines hd 4 (by simp)
    have z5 := cnt_zero_of_done c.goroutines hd 5 (by simp)
    have z6 := cnt_zero_of_done c.goroutines hd 6 (by simp)
    have z7 := cnt_zero_of_done c.goroutines hd 7 (by simp)
    have z8 := cnt_zero_of_done c.goroutines hd 8 (by simp)
    have z11 := cnt_zero_of_done c.goroutines hd 11 (by simp)
    have hlen := cnt_sum c.goroutines
    obtain ⟨hF, hT⟩ := countP_handled_of_done c.goroutines hd
    have h9 : cnt 9 c.goroutines = 1 := by omega
    refine ⟨?_, hinv.log, by omega, by omega, by omega, ?_⟩
    · rw [hcalls, h9]; rfl
    · rw [← hsteps]
      simp only [stepsMade]
      omega

/-- C14 instantiated: two callers on a fresh binding with handler 7; the second
enters while the first holds the mutex and takes it after the first released
it; the first is the one that calls the handler. -/
theorem concurrent_capture_once_witness :
    (Config.spawn (NewContext State.init Context.background (some 7)).2
        (NewContext State.init Context.background (some 7)).1 (error.dyn 1 0 true "boom") 2).exec
      [0, 1, 0, 0, 0, 0, 1, 0, 1, 1, 1, 1]
      = some
        { state := ⟨[⟨false, some 7, [ErrorKey.dyn 1 0]⟩],
            [⟨7, (NewContext State.init Context.background (some 7)).1,
              error.dyn 1 0 true "boom", "boom"⟩], []⟩,
          goroutines :=
            [⟨(NewContext State.init Context.background (some 7)).1, error.dyn 1 0 true "boom",
              Pc.done, "boom", 0, false⟩,
             ⟨(NewContext State.init Context.background (some 7)).1, error.dyn 1 0 true "boom",
              Pc.done, "boom", 0, true⟩] }
    ∧ [0, 1, 0, 0, 0, 0, 1, 0, 1, 1, 1, 1].length ≤ 6 * 2 :=
  have h := concurrent_capture_once (NewContext State.init Context.background (some 7)).2
    (NewContext State.init Context.background (some 7)).1 0
    { lock := false, handlerFunc := some 7, handled := [] } 7 (error.dyn 1 0 true "boom") "boom"
    (ErrorKey.dyn 1 0) 2
    [0, 1, 0, 0, 0, 0, 1, 0, 1, 1, 1, 1]
    { state := ⟨[⟨false, some 7, [ErrorKey.dyn 1 0]⟩],
        [⟨7, (NewContext State.init Context.background (some 7)).1,
          error.dyn 1 0 true "boom", "boom"⟩], []⟩,
      goroutines :=
        [⟨(NewContext State.init Context.background (some 7)).1, error.dyn 1 0 true "boom",
          Pc.done, "boom", 0, false⟩,
         ⟨(NewContext State.init Context.background (some 7)).1, error.dyn 1 0 true "boom",
          Pc.done, "boom", 0, true⟩] }
    ⟨rfl, rfl, rfl⟩ rfl rfl rfl (by decide) (by decide) (by decide) rfl
  ⟨rfl, h.2.1⟩

/-- C14 as stated fails.  With an error whose dynamic value is unhashable, the
first of two concurrent callers panics at the map lookup while holding the
mutex; the program ends there, no goroutine can move, and the handler has not
been called.  With a hashable error that holds a NaN, two callers that run one
after the other both return, both have observed the error as new, and the
handler has been called twice. -/
theorem concurrent_capture_not_for_every_error :
    (Config.spawn (NewContext State.init Context.background (some 7)).2
        (NewContext State.init Context.background (some 7)).1 (error.dyn 1 0 false "boom") 2).exec
      [0, 0, 0]
      = some
        { state := ⟨[⟨true, some 7, []⟩], [], []⟩,
          goroutines :=
            [⟨(NewContext State.init Context.background (some 7)).1, error.dyn 1 0 false "boom",
              Pc.crashed, "boom", 0, false⟩,
             Goroutine.start (NewContext State.init Context.background (some 7)).1
              (error.dyn 1 0 false "boom")] }
    ∧ (∀ i, Config.step
        { state := ⟨[⟨true, some 7, []⟩], [], []⟩,
          goroutines :=
            [⟨(NewContext State.init Context.background (some 7)).1, error.dyn 1 0 false "boom",
              Pc.crashed, "boom", 0, false⟩,
             Goroutine.start (NewContext State.init Context.background (some 7)).1
              (error.dyn 1 0 false "boom")] } i = none)
    ∧ (Config.spawn (NewContext State.init Context.background (some 7)).2
        (NewContext State.init Context.background (some 7)).1 (error.nan 1 0 "NaN") 2).exec
      [0, 0, 0, 0, 0, 0, 1, 1, 1, 1, 1, 1]
      = some
        { state := ⟨[⟨false, some 7, [ErrorKey.nan 1 0, ErrorKey.nan 1 0]⟩],
            [⟨7, (NewContext State.init Context.background (some 7)).1,
              error.nan 1 0 "NaN", "NaN"⟩,
             ⟨7, (NewContext State.init Context.background (some 7)).1,
              error.nan 1 0 "NaN", "NaN"⟩], []⟩,
          goroutines :=
            [⟨(NewContext State.init Context.background (some 7)).1, error.nan 1 0 "NaN",
              Pc.done, "NaN", 0, false⟩,
             ⟨(NewContext State.init Context.background (some 7)).1, error.nan 1 0 "NaN",
              Pc.done, "NaN", 0, false⟩] } := by
  refine ⟨rfl, fun i => ?_, rfl⟩
  simp [Config.step]

/-- The steps of a goroutine that runs `captureMessage` alone, after `Capture`
has evaluated the text of its error. -/
theorem solo_run_captureMessage (s s' : State) (ctx : Context) (e : error) (text : String)
    (ht : e.Error = .ok text) (hfree : s.freeFor ctx)
    (h : captureMessage s ctx e text = .ok s') :
    ∃ sch g, (Config.spawn s ctx e 1).exec sch = some { state := s', goroutines := [g] }
      ∧ g.pc = Pc.done := by
  cases hv : ctx.Value (CtxKey.lib errHandlerContextKey) with
  | error x => simp [captureMessage, hv] at h
  | ok v =>
  cases v with
  | none =>
    rw [captureMessage_unbound s ctx _ text hv] at h
    cases h
    exact ⟨[0], ⟨ctx, e, Pc.done, text, 0, false⟩,
      by simp [Config.exec, Config.step, Config.spawn, Goroutine.start, Goroutine.step, ht, hv],
      rfl⟩
  | some v =>
    cases v with
    | other n =>
      simp [captureMessage, hv, pure, Except.pure] at h
      subst h
      exact ⟨[0], ⟨ctx, e, Pc.done, text, 0, false⟩,
        by simp [Config.exec, Config.step, Config.spawn, Goroutine.start, Goroutine.step, ht,
          hv],
        rfl⟩
    | errorHandlerPtr a =>
      cases hb : s.heap[a]? with
      | none =>
        simp [captureMessage, hv, hb, pure, Except.pure] at h
        subst h
        exact ⟨[0], ⟨ctx, e, Pc.done, text, 0, false⟩,
          by simp [Config.exec, Config.step, Config.spawn, Goroutine.start, Goroutine.step, ht,
            hv, hb],
          rfl⟩
      | some b =>
        have hl : b.lock = false := hfree a b hv hb
        have hr : Resolves s ctx a b := ⟨hv, hb, hl⟩
        have hlt : a < s.heap.length := getElem?_lt s.heap a b hb
        cases hk : e.mapKey with
        | error x =>
          simp [captureMessage, hv, hb, errorHandler.Lock, hl, hk, bind, Except.bind] at h
        | ok k =>
          have hb' : ({ lock := false, handlerFunc := b.handlerFunc, handled := b.handled }
              : errorHandler) = b := by
            cases b; simp_all
          cases hin : mapHas b.handled k with
          | true =>
            rw [captureMessage_seen s ctx _ text a b k hr hk hin] at h
            cases h
            refine ⟨[0, 0, 0, 0, 0, 0], ⟨ctx, e, Pc.done, text, a, true⟩, ?_, rfl⟩
            simp [Config.exec, Config.step, Config.spawn, Goroutine.start, Goroutine.step,
              ht, hv, hb, errorHandler.Lock, hl, hk, hin, State.store, hlt,
              errorHandler.Unlock, hb']
            have := store_same s a b hb
            simp only [State.store] at this
            exact this
          | false =>
            have hopt : b.handlerFunc = none ∨ ∃ f, b.handlerFunc = some f := by
              cases b.handlerFunc with
              | none => exact Or.inl rfl
              | some f => exact Or.inr ⟨f, rfl⟩
            rcases hopt with hf | ⟨f, hf⟩
            · rw [captureMessage_new_default s ctx _ text text a b k hr hf hk hin ht] at h
              cases h
              refine ⟨[0, 0, 0, 0, 0, 0], ⟨ctx, e, Pc.done, text, a, false⟩, ?_, rfl⟩
              simp [Config.exec, Config.step, Config.spawn, Goroutine.start, Goroutine.step,
                ht, hv, hb, errorHandler.Lock, hl, hk, hin, State.store, hlt,
                errorHandler.Unlock, hf, defaultErrHandler, pure,
                Except.pure, bind, Except.bind]
            · rw [captureMessage_new_user s ctx _ text a b k f hr hf hk hin] at h
              cases h
              refine ⟨[0, 0, 0, 0, 0, 0], ⟨ctx, e, Pc.done, text, a, false⟩, ?_, rfl⟩
              simp [Config.exec, Config.step, Config.spawn, Goroutine.start, Goroutine.step,
                ht, hv, hb, errorHandler.Lock, hl, hk, hin, State.store, hlt,
                errorHandler.Unlock, hf, callHandler]

/-- A goroutine that runs alone does what the sequential `Capture` does: from a
state in which the mutex of the binding of the context is free, every returning
call `Capture(ctx, e)` is reached by the steps of a single goroutine, which ends
returned with the same state. -/
theorem solo_run_is_Capture (s s' : State) (ctx : Context) (e : error) (hfree : s.freeFor ctx)
    (h : Capture s ctx e = .ok s') :
    ∃ sch g, (Config.spawn s ctx e 1).exec sch = some { state := s', goroutines := [g] }
      ∧ g.pc = Pc.done := by
  cases ht : e.Error with
  | error x => simp [Capture, ht, bind, Except.bind] at h
  | ok text =>
    rw [Capture_of_Error s ctx e text ht] at h
    exact solo_run_captureMessage s s' ctx e text ht hfree h

end ctxerror
